import Mathlib

/-!
Shallow embedding of the eepromSim NVM manager (C sources under src/) and
proofs about its specification claims.

Modelling conventions:
- machine integers become Nat with explicit reductions modulo 2 to the word
  width where overflow can matter;
- the simulated EEPROM storage is a total function from byte address to byte
  value; per-erase-block wear counters are a function from block index to Nat;
- every C function that mutates globals becomes a pure function threading an
  explicit state record;
- logging calls and simulated delays are omitted: they do not change any state
  observed by the claims;
- caller-supplied buffers are Lean lists; NULL-pointer guard branches are not
  representable (lists are never NULL) and are noted in comments where the
  source checks them.
-/

set_option maxRecDepth 4000

/-- Std_ReturnType from common_types.h. -/
inductive Std_ReturnType where
  | E_OK
  | E_NOT_OK
  | E_PENDING
deriving DecidableEq, Repr

open Std_ReturnType

/-- Job result codes from common_types.h (NvM_RequestResultType). -/
def NVM_REQ_OK : Nat := 0

def NVM_REQ_NOT_OK : Nat := 1

def NVM_REQ_PENDING : Nat := 2

def NVM_REQ_INTEGRITY_FAILED : Nat := 3

/-- Geometry constants of default_config in eeprom_driver.c. -/
def EEPROM_CAPACITY_BYTES : Nat := 4096

def EEPROM_PAGE_SIZE : Nat := 256

def EEPROM_ERASE_BLOCK_SIZE : Nat := 1024

def EEPROM_ENDURANCE_CYCLES : Nat := 100000

/-- EEPROM_BLOCK_SLOT_SIZE from eeprom_layout.h. -/
def EEPROM_BLOCK_SLOT_SIZE : Nat := 1024

/-- NVM_MAX_BLOCKS from nvm.c. -/
def NVM_MAX_BLOCKS : Nat := 16

/-- NVM_JOB_QUEUE_SIZE from nvm_jobqueue.h. -/
def NVM_JOB_QUEUE_SIZE : Nat := 32

/-- RAM_MIRROR_MAX_BLOCK_SIZE from ram_mirror_seqlock.h. -/
def RAM_MIRROR_MAX_BLOCK_SIZE : Nat := 1024

def U8 : Nat := 256

def U16 : Nat := 65536

def U32 : Nat := 4294967296

/-- One shift step of the CRC-16 bit loop.

Modelled from the spec: the CRC-16 engine source file is not under src/ (only
crc16.h and its unit tests are present).  Per spec section 4.2 the variant is
CRC-16-CCITT: polynomial 0x1021, initial value 0xFFFF, no input or output
reflection, no final XOR, processed most significant bit first. -/
def crc16ShiftBit (c : Nat) : Nat :=
  if 32768 ≤ c then ((c * 2) ^^^ 4129) % U16 else (c * 2) % U16

/-- Iterated CRC shift steps (eight per input byte). -/
def crc16ShiftBits : Nat → Nat → Nat
  | 0, c => c
  | n + 1, c => crc16ShiftBits n (crc16ShiftBit c)

/-- Absorb one input byte into the CRC accumulator (MSB-first). -/
def crc16Step (c b : Nat) : Nat :=
  crc16ShiftBits 8 ((c ^^^ (b % U8 * U8)) % U16)

/-- Modelled from the spec: Crc16_Calculate of crc16.h, CRC-16-CCITT with
initial value 0xFFFF over the byte list. -/
def Crc16_Calculate (data : List Nat) : Nat :=
  data.foldl crc16Step 0xFFFF

/-- The unit test test_crc16.c asserts the initial value on empty input. -/
example : Crc16_Calculate [] = 0xFFFF := by decide

/-- Standard CCITT-FALSE check value on the ASCII bytes of 123456789. -/
example : Crc16_Calculate [0x31, 0x32, 0x33, 0x34, 0x35, 0x36, 0x37, 0x38, 0x39] = 0x29B1 := by
  decide

/-- Fault identifiers from fault_injection.h. -/
def FAULT_NONE : Nat := 0

def FAULT_P0_POWERLOSS_PAGEPROGRAM : Nat := 0x01

def FAULT_P0_BITFLIP_SINGLE : Nat := 0x03

def FAULT_P0_BITFLIP_MULTI : Nat := 0x04

def FAULT_P0_TIMEOUT_ERASE : Nat := 0x06

/-- FaultConfig_t from fault_injection.h: one registered fault kind. -/
structure FaultConfig where
  fault_id : Nat
  enabled : Bool
  target_block_id : Nat
  trigger_count : Nat
  triggered_count : Nat
  probability_percent : Nat
deriving DecidableEq, Repr

/-- The process-wide fault-injection registry of fault_injection.c:
the g_fault_configs table, the LCG state g_rand_state and the
total_injected counter of g_stats. -/
structure FaultState where
  configs : List FaultConfig
  rand_state : Nat
  total_injected : Nat
deriving DecidableEq, Repr

/-- The LCG step inside random_percent (32-bit wrap-around). -/
def faultLcgNext (r : Nat) : Nat :=
  (r * 1103515245 + 12345) % U32

/-- random_percent from fault_injection.c: advances the LCG and derives a
number in 0..999. -/
def random_percent (r : Nat) : Nat × Nat :=
  let r2 := faultLcgNext r
  ((r2 / 65536) % 1000, r2)

/-- find_config from fault_injection.c: first table entry with the wanted
fault id (entries with id FAULT_NONE are free slots). -/
def find_config (fid : Nat) (fs : FaultState) : Option FaultConfig :=
  fs.configs.find? (fun c => c.fault_id = fid ∧ c.fault_id ≠ FAULT_NONE)

/-- should_trigger from fault_injection.c.  Returns the decision and the
possibly advanced LCG state. -/
def should_trigger (c : FaultConfig) (r : Nat) : Bool × Nat :=
  if c.enabled = false then (false, r)
  else if 0 < c.trigger_count ∧ c.trigger_count ≤ c.triggered_count then (false, r)
  else if c.probability_percent = 0 then (true, r)
  else
    let (roll, r2) := random_percent r
    (decide (roll < c.probability_percent * 10), r2)

/-- Applies an update to the first table entry with the given fault id,
mirroring mutation through the pointer returned by find_config. -/
def updateConfig (fid : Nat) (f : FaultConfig → FaultConfig) : List FaultConfig → List FaultConfig
  | [] => []
  | c :: rest =>
    if c.fault_id = fid ∧ c.fault_id ≠ FAULT_NONE then f c :: rest
    else c :: updateConfig fid f rest

/-- FaultInj_HookBeforeRead from fault_injection.c: never blocks a read. -/
def FaultInj_HookBeforeRead (_address _length : Nat) : Bool :=
  false

/-- FaultInj_HookAfterRead from fault_injection.c: may flip bits in the byte
buffer just read.  Returns (fired, new buffer, new fault state). -/
def FaultInj_HookAfterRead (data : List Nat) (fs : FaultState) :
    Bool × List Nat × FaultState :=
  if data.length = 0 then (false, data, fs)
  else
    match find_config FAULT_P0_BITFLIP_SINGLE fs with
    | some c =>
      let (fire, r2) := should_trigger c fs.rand_state
      if fire then
        let data2 := data.set 0 ((data.getD 0 0) ^^^ 0x01)
        (true, data2,
          { fs with
            configs := updateConfig FAULT_P0_BITFLIP_SINGLE
              (fun k => { k with triggered_count := k.triggered_count + 1 }) fs.configs
            rand_state := r2
            total_injected := fs.total_injected + 1 })
      else
        bitflipMultiCase data { fs with rand_state := r2 }
    | none => bitflipMultiCase data fs
where
  /-- The FAULT_P0_BITFLIP_MULTI branch: inverts the first up-to-four bytes. -/
  bitflipMultiCase (data : List Nat) (fs : FaultState) : Bool × List Nat × FaultState :=
    match find_config FAULT_P0_BITFLIP_MULTI fs with
    | some c =>
      let (fire, r2) := should_trigger c fs.rand_state
      if fire then
        let flip_count := if 4 < data.length then 4 else data.length
        let data2 := (data.take flip_count).map (fun b => b ^^^ 0xFF) ++ data.drop flip_count
        (true, data2,
          { fs with
            configs := updateConfig FAULT_P0_BITFLIP_MULTI
              (fun k => { k with triggered_count := k.triggered_count + 1 }) fs.configs
            rand_state := r2
            total_injected := fs.total_injected + 1 })
      else (false, data, { fs with rand_state := r2 })
    | none => (false, data, fs)

/-- FaultInj_HookBeforeWrite from fault_injection.c (erase-timeout fault). -/
def FaultInj_HookBeforeWrite (_address _length : Nat) (fs : FaultState) :
    Bool × FaultState :=
  match find_config FAULT_P0_TIMEOUT_ERASE fs with
  | some c =>
    let (fire, r2) := should_trigger c fs.rand_state
    if fire then
      (true,
        { fs with
          configs := updateConfig FAULT_P0_TIMEOUT_ERASE
            (fun k => { k with triggered_count := k.triggered_count + 1 }) fs.configs
          rand_state := r2
          total_injected := fs.total_injected + 1 })
    else (false, { fs with rand_state := r2 })
  | none => (false, fs)

/-- FaultInj_HookAfterWrite from fault_injection.c (power-loss fault). -/
def FaultInj_HookAfterWrite (_address : Nat) (fs : FaultState) :
    Bool × FaultState :=
  match find_config FAULT_P0_POWERLOSS_PAGEPROGRAM fs with
  | some c =>
    let (fire, r2) := should_trigger c fs.rand_state
    if fire then
      (true,
        { fs with
          configs := updateConfig FAULT_P0_POWERLOSS_PAGEPROGRAM
            (fun k => { k with triggered_count := k.triggered_count + 1 }) fs.configs
          rand_state := r2
          total_injected := fs.total_injected + 1 })
    else (false, { fs with rand_state := r2 })
  | none => (false, fs)

/-- No fault configuration in the registry is enabled: the situation the spec
calls no fault injections enabled. -/
def NoFaults (fs : FaultState) : Prop :=
  ∀ c ∈ fs.configs, c.enabled = false

instance (fs : FaultState) : Decidable (NoFaults fs) := by
  unfold NoFaults; infer_instance

/-- The simulated EEPROM medium of eeprom_driver.c: byte content, per
erase-block wear counters, and the g_initialized flag. -/
structure EepromState where
  storage : Nat → Nat
  eraseCounts : Nat → Nat
  initialized : Bool

/-- Combined medium plus fault-injection registry: the globals visible to one
driver call. -/
structure SimState where
  eeprom : EepromState
  faults : FaultState

/-- Reads len consecutive bytes starting at addr out of a storage function. -/
def listBytes (σ : Nat → Nat) (addr len : Nat) : List Nat :=
  (List.range len).map (fun i => σ (addr + i))

/-- Overwrites the len bytes starting at addr by the given data, mirroring the
memcpy into virtual_storage. -/
def overwriteRange (σ : Nat → Nat) (addr : Nat) (data : List Nat) (len : Nat) :
    Nat → Nat :=
  fun a => if addr ≤ a ∧ a < addr + len then data.getD (a - addr) 0 else σ a

/-- validate_address from eeprom_driver.c (capacity from default_config; the
address plus length sum wraps like a uint32). -/
def validate_address (e : EepromState) (address length : Nat) : Prop :=
  e.initialized = true ∧ address < EEPROM_CAPACITY_BYTES ∧
    (address + length) % U32 ≤ EEPROM_CAPACITY_BYTES

instance (e : EepromState) (a l : Nat) : Decidable (validate_address e a l) := by
  unfold validate_address; infer_instance

/-- Eep_Read from eeprom_driver.c.  Returns some bytes on E_OK (the buffer
contents after the post-read fault hook) and none on E_NOT_OK.  The NULL
buffer guard of the source has no counterpart on lists. -/
def Eep_Read (address length : Nat) (s : SimState) : Option (List Nat) × SimState :=
  if validate_address s.eeprom address length then
    if FaultInj_HookBeforeRead address length then (none, s)
    else
      let data := listBytes s.eeprom.storage address length
      let (_fired, data2, fs2) := FaultInj_HookAfterRead data s.faults
      (some data2, { s with faults := fs2 })
  else (none, s)

/-- Eep_Write from eeprom_driver.c.  data carries the caller buffer; length is
the explicit byte count of the call.  On the injected power loss the bytes are
already committed but the return is E_NOT_OK, exactly as in the source. -/
def Eep_Write (address : Nat) (data : List Nat) (length : Nat) (s : SimState) :
    Std_ReturnType × SimState :=
  if validate_address s.eeprom address length then
    let (blocked, fs1) := FaultInj_HookBeforeWrite address length s.faults
    if blocked then (E_NOT_OK, { s with faults := fs1 })
    else if address % EEPROM_PAGE_SIZE = 0 then
      if length % EEPROM_PAGE_SIZE = 0 then
        if ∀ i < length, s.eeprom.storage (address + i) = 0xFF then
          let e2 := { s.eeprom with
            storage := overwriteRange s.eeprom.storage address data length }
          let (ploss, fs2) := FaultInj_HookAfterWrite address fs1
          if ploss then (E_NOT_OK, { eeprom := e2, faults := fs2 })
          else (E_OK, { eeprom := e2, faults := fs2 })
        else (E_NOT_OK, { s with faults := fs1 })
      else (E_NOT_OK, { s with faults := fs1 })
    else (E_NOT_OK, { s with faults := fs1 })
  else (E_NOT_OK, s)

/-- Eep_Erase from eeprom_driver.c: whole-erase-block erase with endurance
accounting.  No fault hooks are consulted in the source. -/
def Eep_Erase (address : Nat) (s : SimState) : Std_ReturnType × SimState :=
  if validate_address s.eeprom address EEPROM_ERASE_BLOCK_SIZE then
    if address % EEPROM_ERASE_BLOCK_SIZE = 0 then
      let blockIdx := address / EEPROM_ERASE_BLOCK_SIZE
      if EEPROM_ENDURANCE_CYCLES ≤ s.eeprom.eraseCounts blockIdx then (E_NOT_OK, s)
      else
        (E_OK,
          { s with eeprom :=
            { s.eeprom with
              storage := overwriteRange s.eeprom.storage address
                (List.replicate EEPROM_ERASE_BLOCK_SIZE 0xFF) EEPROM_ERASE_BLOCK_SIZE
              eraseCounts := fun b =>
                if b = blockIdx then s.eeprom.eraseCounts b + 1
                else s.eeprom.eraseCounts b } })
    else (E_NOT_OK, s)
  else (E_NOT_OK, s)

/-- MemIf_Read from memif.c: forwards to Eep_Read (NULL guard dropped). -/
def MemIf_Read (address length : Nat) (s : SimState) : Option (List Nat) × SimState :=
  Eep_Read address length s

/-- MemIf_Write from memif.c: forwards to Eep_Write (NULL guard dropped). -/
def MemIf_Write (address : Nat) (data : List Nat) (length : Nat) (s : SimState) :
    Std_ReturnType × SimState :=
  Eep_Write address data length s

/-- MemIf_Erase from memif.c: checks erase-block alignment, then forwards to
Eep_Erase; the length argument is not used beyond that, as in the source. -/
def MemIf_Erase (address : Nat) (_length : Nat) (s : SimState) :
    Std_ReturnType × SimState :=
  if s.eeprom.initialized = true ∧ address % EEPROM_ERASE_BLOCK_SIZE = 0 then
    Eep_Erase address s
  else (E_NOT_OK, s)

/-- Eep_Init with a NULL config pointer, as called from MemIf_Init: installs
default_config, allocates fresh storage in erased state and zero wear
counters. -/
def Eep_Init_default (s : SimState) : SimState :=
  { s with eeprom :=
    { storage := fun _ => 0xFF
      eraseCounts := fun _ => 0
      initialized := true } }

/-- The first size bytes of a caller buffer, with reads past the end of the
list giving 0 (the C code would read whatever follows the buffer; all call
sites in the theorems supply buffers of exactly the stated size). -/
def bufBytes (data : List Nat) (size : Nat) : List Nat :=
  (List.range size).map (fun i => data.getD i 0)

/-- A 16-bit word assembled from two consecutive storage bytes.  The source
moves the CRC with memcpy through a uint16, so byte order is the host order;
the simulation targets a little-endian host and both the write and the read
path use the same order, which is all the round-trip facts rely on. -/
def stored16 (σ : Nat → Nat) (addr : Nat) : Nat :=
  σ addr % U8 + U8 * (σ (addr + 1) % U8)

/-- NvM_BlockType_t from nvm.h. -/
inductive NvM_BlockType where
  | NATIVE
  | REDUNDANT
  | DATASET
deriving DecidableEq, Repr

/-- NvM_CrcType_t from nvm.h. -/
inductive NvM_CrcType where
  | NONE
  | CRC8
  | CRC16
  | CRC32
deriving DecidableEq, Repr

/-- NvM_BlockStateType_t from nvm.h. -/
inductive NvM_BlockState where
  | UNINITIALIZED
  | VALID
  | INVALID
  | RECOVERING
  | RECOVERED
deriving DecidableEq, Repr

/-- The crc_size switch of EEPROM_CalcBlockLayout in eeprom_layout.c. -/
def crcSizeOf : NvM_CrcType → Nat
  | NvM_CrcType.NONE => 0
  | NvM_CrcType.CRC8 => 1
  | NvM_CrcType.CRC16 => 2
  | NvM_CrcType.CRC32 => 4

/-- NvM_BlockConfig_t from nvm.h.  The ROM default pointer becomes an Option;
ram_mirror_ptr holds the mirror buffer contents. -/
structure NvM_BlockConfig where
  block_id : Nat
  block_size : Nat
  block_type : NvM_BlockType
  crc_type : NvM_CrcType
  priority : Nat
  is_immediate : Bool
  is_write_protected : Bool
  ram_mirror_ptr : List Nat
  rom_block_ptr : Option (List Nat)
  rom_block_size : Nat
  eeprom_offset : Nat
  redundant_eeprom_offset : Nat
  version_control_offset : Nat
  active_version : Nat
  dataset_count : Nat
  active_dataset_index : Nat
  state : NvM_BlockState
  erase_count : Nat
deriving DecidableEq, Repr

/-- NvM_TryReadBlock from nvm_block_types.c.  buf is the caller buffer; the
returned list is the buffer after the call (filled by the data read even when
the CRC comparison fails, untouched when the driver read fails). -/
def NvM_TryReadBlock (offset : Nat) (buf : List Nat) (size : Nat)
    (crc_type : NvM_CrcType) (s : SimState) : Bool × List Nat × SimState :=
  match MemIf_Read offset size s with
  | (none, s1) => (false, buf, s1)
  | (some data, s1) =>
    if crc_type = NvM_CrcType.NONE then (true, data, s1)
    else
      match MemIf_Read (offset + size) 2 s1 with
      | (none, s2) => (false, data, s2)
      | (some crcBytes, s2) =>
        let stored_crc := crcBytes.getD 0 0 % U8 + U8 * (crcBytes.getD 1 0 % U8)
        let calculated_crc := Crc16_Calculate data
        if stored_crc = calculated_crc then (true, data, s2)
        else (false, data, s2)

/-- NvM_WriteBlockWithCrc from nvm_block_types.c: erase the slot erase block,
program the payload, then program one full page holding the CRC word padded
with erased-state bytes. -/
def NvM_WriteBlockWithCrc (offset : Nat) (data : List Nat) (size : Nat)
    (crc_type : NvM_CrcType) (s : SimState) : Std_ReturnType × SimState :=
  let crc := if crc_type = NvM_CrcType.NONE then 0 else Crc16_Calculate (bufBytes data size)
  match MemIf_Erase offset size s with
  | (E_OK, s1) =>
    (match MemIf_Write offset data size s1 with
     | (E_OK, s2) =>
       if crc_type = NvM_CrcType.NONE then (E_OK, s2)
       else
         let crc_offset := offset + size
         if crc_offset % 256 = 0 then
           let page_buffer := [crc % U8, crc / U8 % U8] ++ List.replicate 254 0xFF
           match MemIf_Write crc_offset page_buffer 256 s2 with
           | (E_OK, s3) => (E_OK, s3)
           | (_, s3) => (E_NOT_OK, s3)
         else (E_NOT_OK, s2)
     | (_, s2) => (E_NOT_OK, s2))
  | (_, s1) => (E_NOT_OK, s1)

/-- memcpy of the ROM default over the head of the caller buffer, copying
min(rom_block_size, block_size) bytes. -/
def romCopy (buf rom : List Nat) (romSize blockSize : Nat) : List Nat :=
  let m := if romSize < blockSize then romSize else blockSize
  bufBytes rom m ++ buf.drop m

/-- NvM_ReadNativeBlock from nvm_block_types.c. -/
def NvM_ReadNativeBlock (b : NvM_BlockConfig) (buf : List Nat) (s : SimState) :
    Std_ReturnType × List Nat × NvM_BlockConfig × SimState :=
  match NvM_TryReadBlock b.eeprom_offset buf b.block_size b.crc_type s with
  | (true, buf1, s1) => (E_OK, buf1, { b with state := NvM_BlockState.VALID }, s1)
  | (false, buf1, s1) =>
    match b.rom_block_ptr with
    | some rom =>
      if 0 < b.rom_block_size then
        (E_NOT_OK, romCopy buf1 rom b.rom_block_size b.block_size,
          { b with state := NvM_BlockState.INVALID }, s1)
      else (E_NOT_OK, buf1, { b with state := NvM_BlockState.INVALID }, s1)
    | none => (E_NOT_OK, buf1, { b with state := NvM_BlockState.INVALID }, s1)

/-- NvM_WriteNativeBlock from nvm_block_types.c. -/
def NvM_WriteNativeBlock (b : NvM_BlockConfig) (data : List Nat) (s : SimState) :
    Std_ReturnType × NvM_BlockConfig × SimState :=
  match NvM_WriteBlockWithCrc b.eeprom_offset data b.block_size b.crc_type s with
  | (E_OK, s1) =>
    (E_OK, { b with erase_count := b.erase_count + 1, state := NvM_BlockState.VALID }, s1)
  | (r, s1) => (r, b, s1)

/-- NvM_ReadRedundantBlock from nvm_block_types.c: primary, then backup, then
ROM fallback. -/
def NvM_ReadRedundantBlock (b : NvM_BlockConfig) (buf : List Nat) (s : SimState) :
    Std_ReturnType × List Nat × NvM_BlockConfig × SimState :=
  match NvM_TryReadBlock b.eeprom_offset buf b.block_size b.crc_type s with
  | (true, buf1, s1) => (E_OK, buf1, { b with state := NvM_BlockState.VALID }, s1)
  | (false, buf1, s1) =>
    match NvM_TryReadBlock b.redundant_eeprom_offset buf1 b.block_size b.crc_type s1 with
    | (true, buf2, s2) => (E_OK, buf2, { b with state := NvM_BlockState.RECOVERED }, s2)
    | (false, buf2, s2) =>
      match b.rom_block_ptr with
      | some rom =>
        if 0 < b.rom_block_size then
          (E_NOT_OK, romCopy buf2 rom b.rom_block_size b.block_size,
            { b with state := NvM_BlockState.INVALID }, s2)
        else (E_NOT_OK, buf2, { b with state := NvM_BlockState.INVALID }, s2)
      | none => (E_NOT_OK, buf2, { b with state := NvM_BlockState.INVALID }, s2)

/-- NvM_WriteRedundantBlock from nvm_block_types.c: write primary, verify it
(only when block_size fits the 256-byte stack buffer), write backup (failure
tolerated), then bump the version byte.  The version write through MemIf has
its return discarded, as in the source. -/
def NvM_WriteRedundantBlock (b : NvM_BlockConfig) (data : List Nat) (s : SimState) :
    Std_ReturnType × NvM_BlockConfig × SimState :=
  match NvM_WriteBlockWithCrc b.eeprom_offset data b.block_size b.crc_type s with
  | (E_OK, s1) =>
    let verify :=
      if b.block_size ≤ 256 then
        NvM_TryReadBlock b.eeprom_offset (List.replicate 256 0) b.block_size b.crc_type s1
      else (true, List.replicate 256 0, s1)
    match verify with
    | (false, _, s2) => (E_NOT_OK, b, s2)
    | (true, _, s2) =>
      let (_rb, s3) := NvM_WriteBlockWithCrc b.redundant_eeprom_offset data
        b.block_size b.crc_type s2
      let newVersion := (b.active_version + 1) % U8
      let s4 :=
        if 0 < b.version_control_offset then
          (MemIf_Write b.version_control_offset [newVersion] 1 s3).2
        else s3
      (E_OK,
        { b with
          active_version := newVersion
          erase_count := b.erase_count + 1
          state := NvM_BlockState.VALID }, s4)
  | (_, s1) => (E_NOT_OK, b, s1)

/-- The next round-robin slot index chosen by NvM_WriteDatasetBlock. -/
def datasetNextIndex (b : NvM_BlockConfig) : Nat :=
  (b.active_dataset_index + 1) % b.dataset_count

/-- The EEPROM offset the next NvM_WriteDatasetBlock call programs. -/
def datasetTargetOffset (b : NvM_BlockConfig) : Nat :=
  b.eeprom_offset + datasetNextIndex b * EEPROM_BLOCK_SLOT_SIZE

/-- NvM_WriteDatasetBlock from nvm_block_types.c: advance to the next slot,
write it, and only on success make the new slot the live one. -/
def NvM_WriteDatasetBlock (b : NvM_BlockConfig) (data : List Nat) (s : SimState) :
    Std_ReturnType × NvM_BlockConfig × SimState :=
  match NvM_WriteBlockWithCrc (datasetTargetOffset b) data b.block_size b.crc_type s with
  | (E_OK, s1) =>
    (E_OK,
      { b with
        active_dataset_index := datasetNextIndex b
        erase_count := b.erase_count + 1
        state := NvM_BlockState.VALID }, s1)
  | (_, s1) => (E_NOT_OK, b, s1)

/-- The scan loop of NvM_ReadDatasetBlock over the offsets i = 0, 1, ... -/
def datasetReadLoop (b : NvM_BlockConfig) (buf : List Nat) (s : SimState) :
    List Nat → Std_ReturnType × List Nat × NvM_BlockConfig × SimState
  | [] =>
    (match b.rom_block_ptr with
     | some rom =>
       if 0 < b.rom_block_size then
         (E_NOT_OK, romCopy buf rom b.rom_block_size b.block_size,
           { b with state := NvM_BlockState.INVALID }, s)
       else (E_NOT_OK, buf, { b with state := NvM_BlockState.INVALID }, s)
     | none => (E_NOT_OK, buf, { b with state := NvM_BlockState.INVALID }, s))
  | i :: rest =>
    let dataset_index := (b.active_dataset_index + i) % b.dataset_count
    let offset := b.eeprom_offset + dataset_index * EEPROM_BLOCK_SLOT_SIZE
    match NvM_TryReadBlock offset buf b.block_size b.crc_type s with
    | (true, buf1, s1) =>
      if i = 0 then (E_OK, buf1, { b with state := NvM_BlockState.VALID }, s1)
      else
        (E_OK, buf1,
          { b with
            state := NvM_BlockState.RECOVERED
            active_dataset_index := dataset_index }, s1)
    | (false, buf1, s1) => datasetReadLoop b buf1 s1 rest

/-- NvM_ReadDatasetBlock from nvm_block_types.c: scan dataset_count slots
starting at the active index, with ROM fallback when all fail. -/
def NvM_ReadDatasetBlock (b : NvM_BlockConfig) (buf : List Nat) (s : SimState) :
    Std_ReturnType × List Nat × NvM_BlockConfig × SimState :=
  datasetReadLoop b buf s (List.range b.dataset_count)

/-- EEPROM_ValidateBlockConfig from eeprom_layout.c.  The boundary check uses
crc_size = 2 for every CRC kind (the source comment reads: assume CRC16 for
validation). -/
def EEPROM_ValidateBlockConfig (cfg : NvM_BlockConfig) : Bool :=
  if cfg.eeprom_offset % EEPROM_BLOCK_SLOT_SIZE = 0 then
    let crc_offset := cfg.eeprom_offset + cfg.block_size
    let crc_size := 2
    if cfg.eeprom_offset + EEPROM_BLOCK_SLOT_SIZE < crc_offset + crc_size then false
    else
      match cfg.block_type with
      | NvM_BlockType.NATIVE => true
      | NvM_BlockType.REDUNDANT =>
        if cfg.redundant_eeprom_offset % EEPROM_BLOCK_SLOT_SIZE = 0 then
          if cfg.redundant_eeprom_offset < cfg.eeprom_offset + EEPROM_BLOCK_SLOT_SIZE then
            false
          else true
        else false
      | NvM_BlockType.DATASET =>
        if cfg.dataset_count = 0 ∨ 4 < cfg.dataset_count then false
        else if 4096 < cfg.dataset_count * EEPROM_BLOCK_SLOT_SIZE then false
        else true
  else false

/-- NvM_JobType_t from nvm.h. -/
inductive NvM_JobType where
  | READ
  | WRITE
  | READ_ALL
  | WRITE_ALL
deriving DecidableEq, Repr

/-- NvM_Job_t from nvm.h.  data_ptr carries the caller buffer contents. -/
structure NvM_Job where
  job_type : NvM_JobType
  block_id : Nat
  priority : Nat
  is_immediate : Bool
  data_ptr : List Nat
  submit_time_ms : Nat
  timeout_ms : Nat
  retry_count : Nat
  max_retries : Nat
deriving DecidableEq, Repr

/-- NvM_JobQueue_t from nvm_jobqueue.c.  The circular buffer with head, tail
and count is represented by the list of queued jobs in ring order from head
to tail; count is the list length.  max_count is the watermark and
overflow_count the overflow counter. -/
structure NvM_JobQueue where
  jobs : List NvM_Job
  max_count : Nat
  overflow_count : Nat
deriving DecidableEq, Repr

/-- calculate_effective_priority from nvm_jobqueue.c. -/
def calculate_effective_priority (job : NvM_Job) : Nat :=
  match job.job_type with
  | NvM_JobType.READ_ALL => 0
  | NvM_JobType.WRITE_ALL => 1
  | _ =>
    if job.is_immediate = true ∧ 2 < job.priority then job.priority - 2
    else job.priority

/-- find_insert_position from nvm_jobqueue.c: the first queue position whose
job has a strictly larger effective priority value, or the tail. -/
def find_insert_position (job : NvM_Job) (jobs : List NvM_Job) : Nat :=
  jobs.findIdx (fun e => calculate_effective_priority job < calculate_effective_priority e)

/-- NvM_JobQueue_Enqueue from nvm_jobqueue.c: reject when full, otherwise
insert at the priority-preserving position (the element shifts of the ring
buffer amount to a list insertion) and update the watermark. -/
def NvM_JobQueue_Enqueue (job : NvM_Job) (q : NvM_JobQueue) :
    Std_ReturnType × NvM_JobQueue :=
  if NVM_JOB_QUEUE_SIZE ≤ q.jobs.length then
    (E_NOT_OK, { q with overflow_count := q.overflow_count + 1 })
  else
    let insert_pos := find_insert_position job q.jobs
    let jobs2 := q.jobs.insertIdx insert_pos job
    (E_OK,
      { q with
        jobs := jobs2
        max_count := if q.max_count < jobs2.length then jobs2.length else q.max_count })

/-- NvM_JobQueue_Dequeue from nvm_jobqueue.c: remove the head. -/
def NvM_JobQueue_Dequeue (q : NvM_JobQueue) :
    Std_ReturnType × Option NvM_Job × NvM_JobQueue :=
  match q.jobs with
  | [] => (E_NOT_OK, none, q)
  | j :: rest => (E_OK, some j, { q with jobs := rest })

/-- Elapsed time as computed by uint32 subtraction current minus submit. -/
def elapsedMs (now submit : Nat) : Nat :=
  (now % U32 + U32 - submit % U32) % U32

/-- The scan loop of NvM_JobQueue_CheckTimeouts over the jobs from head to
tail: jobs past their timeout get the retry counter incremented (uint8) and
are removed once it exceeds max_retries.  Returns the number of dropped jobs
and the remaining queue content. -/
def checkTimeoutsList (now : Nat) : List NvM_Job → Nat × List NvM_Job
  | [] => (0, [])
  | j :: rest =>
    if j.timeout_ms = 0 then
      let (c, rest2) := checkTimeoutsList now rest
      (c, j :: rest2)
    else if j.timeout_ms < elapsedMs now j.submit_time_ms then
      let j2 := { j with retry_count := (j.retry_count + 1) % U8 }
      if j.max_retries < j2.retry_count then
        let (c, rest2) := checkTimeoutsList now rest
        (c + 1, rest2)
      else
        let (c, rest2) := checkTimeoutsList now rest
        (c, j2 :: rest2)
    else
      let (c, rest2) := checkTimeoutsList now rest
      (c, j :: rest2)

/-- NvM_JobQueue_CheckTimeouts from nvm_jobqueue.c. -/
def NvM_JobQueue_CheckTimeouts (now : Nat) (q : NvM_JobQueue) : Nat × NvM_JobQueue :=
  let (c, jobs2) := checkTimeoutsList now q.jobs
  (c, { q with jobs := jobs2 })

/-- NvM_Diagnostics_t from nvm.h (max_queue_depth lives in the queue as the
watermark and is merged in by NvM_GetDiagnostics). -/
structure NvM_Diagnostics where
  total_jobs_processed : Nat
  total_jobs_failed : Nat
  total_jobs_retried : Nat
  current_queue_depth : Nat
deriving DecidableEq, Repr

/-- The NvM manager globals of nvm.c: the block registry (g_nvm.blocks up to
block_count), diagnostics, the initialized flag, the g_job_results array (as
a total function on block ids), the job queue, the scheduler virtual time
read by OsScheduler_GetVirtualTimeMs, and the driver state. -/
structure NvMState where
  blocks : List NvM_BlockConfig
  diagnostics : NvM_Diagnostics
  initialized : Bool
  job_results : Nat → Nat
  queue : NvM_JobQueue
  now_ms : Nat
  sim : SimState

/-- find_block from nvm.c: first registered block with the wanted id. -/
def find_block (block_id : Nat) (blocks : List NvM_BlockConfig) :
    Option NvM_BlockConfig :=
  blocks.find? (fun b => b.block_id = block_id)

/-- Writes an updated block back into the registry at the position find_block
located it (mutation through the returned pointer in the source). -/
def updateBlock (block_id : Nat) (b2 : NvM_BlockConfig) :
    List NvM_BlockConfig → List NvM_BlockConfig
  | [] => []
  | b :: rest =>
    if b.block_id = block_id then b2 :: rest
    else b :: updateBlock block_id b2 rest

/-- process_read_block from nvm.c.  The bytes landing in the caller buffer
are not tracked beyond the call. -/
def process_read_block (job : NvM_Job) (s : NvMState) : Std_ReturnType × NvMState :=
  match find_block job.block_id s.blocks with
  | none => (E_NOT_OK, s)
  | some b =>
    match b.block_type with
    | NvM_BlockType.NATIVE =>
      match NvM_ReadNativeBlock b job.data_ptr s.sim with
      | (r, _, b2, sim2) =>
        (r, { s with blocks := updateBlock job.block_id b2 s.blocks, sim := sim2 })
    | NvM_BlockType.REDUNDANT =>
      match NvM_ReadRedundantBlock b job.data_ptr s.sim with
      | (r, _, b2, sim2) =>
        (r, { s with blocks := updateBlock job.block_id b2 s.blocks, sim := sim2 })
    | NvM_BlockType.DATASET =>
      match NvM_ReadDatasetBlock b job.data_ptr s.sim with
      | (r, _, b2, sim2) =>
        (r, { s with blocks := updateBlock job.block_id b2 s.blocks, sim := sim2 })

/-- process_write_block from nvm.c: the write-protection check lives here, at
dispatch time. -/
def process_write_block (job : NvM_Job) (s : NvMState) : Std_ReturnType × NvMState :=
  match find_block job.block_id s.blocks with
  | none => (E_NOT_OK, s)
  | some b =>
    if b.is_write_protected = true then (E_NOT_OK, s)
    else
      match b.block_type with
      | NvM_BlockType.NATIVE =>
        match NvM_WriteNativeBlock b job.data_ptr s.sim with
        | (r, b2, sim2) =>
          (r, { s with blocks := updateBlock job.block_id b2 s.blocks, sim := sim2 })
      | NvM_BlockType.REDUNDANT =>
        match NvM_WriteRedundantBlock b job.data_ptr s.sim with
        | (r, b2, sim2) =>
          (r, { s with blocks := updateBlock job.block_id b2 s.blocks, sim := sim2 })
      | NvM_BlockType.DATASET =>
        match NvM_WriteDatasetBlock b job.data_ptr s.sim with
        | (r, b2, sim2) =>
          (r, { s with blocks := updateBlock job.block_id b2 s.blocks, sim := sim2 })

/-- A per-block job as built inside process_read_all and process_write_all
(designated initializer: all fields not listed are zero). -/
def allJobFor (t : NvM_JobType) (block_id : Nat) (mirror : List Nat) : NvM_Job :=
  { job_type := t
    block_id := block_id
    priority := 0
    is_immediate := false
    data_ptr := mirror
    submit_time_ms := 0
    timeout_ms := 0
    retry_count := 0
    max_retries := 0 }

/-- The registry loop of process_read_all.  The loop in the source walks the
block array by index; only the id and the RAM mirror pointer of each entry
are read and neither is changed by processing, so the iteration is over a
snapshot of those two fields. -/
def processAllReadAux : List (Nat × List Nat) → Std_ReturnType → NvMState →
    Std_ReturnType × NvMState
  | [], acc, s => (acc, s)
  | (bid, mirror) :: rest, acc, s =>
    match process_read_block (allJobFor NvM_JobType.READ bid mirror) s with
    | (r, s2) => processAllReadAux rest (if r = E_OK then acc else E_NOT_OK) s2

/-- process_read_all from nvm.c. -/
def process_read_all (s : NvMState) : Std_ReturnType × NvMState :=
  processAllReadAux (s.blocks.map (fun b => (b.block_id, b.ram_mirror_ptr))) E_OK s

/-- The registry loop of process_write_all (also reads the write-protection
flag, which processing never changes). -/
def processAllWriteAux : List (Nat × Bool × List Nat) → Std_ReturnType → NvMState →
    Std_ReturnType × NvMState
  | [], acc, s => (acc, s)
  | (bid, prot, mirror) :: rest, acc, s =>
    if prot then processAllWriteAux rest acc s
    else
      match process_write_block (allJobFor NvM_JobType.WRITE bid mirror) s with
      | (r, s2) => processAllWriteAux rest (if r = E_OK then acc else E_NOT_OK) s2

/-- process_write_all from nvm.c: skips write-protected blocks. -/
def process_write_all (s : NvMState) : Std_ReturnType × NvMState :=
  processAllWriteAux
    (s.blocks.map (fun b => (b.block_id, b.is_write_protected, b.ram_mirror_ptr))) E_OK s

/-- NvM_Init from nvm.c: queue init, MemIf init (which re-creates the EEPROM
in erased state), diagnostics reset, empty registry.  The g_job_results array
is not touched. -/
def NvM_Init (s : NvMState) : NvMState :=
  { s with
    queue := { jobs := [], max_count := 0, overflow_count := 0 }
    sim := Eep_Init_default s.sim
    diagnostics :=
      { total_jobs_processed := 0
        total_jobs_failed := 0
        total_jobs_retried := 0
        current_queue_depth := 0 }
    blocks := []
    initialized := true }

/-- NvM_RegisterBlock from nvm.c (the EEPROM_CalcBlockLayout call in the
source only feeds a debug log and is dropped). -/
def NvM_RegisterBlock (cfg : NvM_BlockConfig) (s : NvMState) :
    Std_ReturnType × NvMState :=
  if NVM_MAX_BLOCKS ≤ s.blocks.length then (E_NOT_OK, s)
  else if EEPROM_ValidateBlockConfig cfg = false then (E_NOT_OK, s)
  else
    (E_OK,
      { s with blocks := s.blocks ++
        [{ cfg with state := NvM_BlockState.UNINITIALIZED, erase_count := 0 }] })

/-- NvM_ReadBlock from nvm.c: validate, enqueue a read job, mark Pending. -/
def NvM_ReadBlock (block_id : Nat) (buffer : List Nat) (s : NvMState) :
    Std_ReturnType × NvMState :=
  if s.initialized = false then (E_NOT_OK, s)
  else
    match find_block block_id s.blocks with
    | none => (E_NOT_OK, s)
    | some b =>
      let job : NvM_Job :=
        { job_type := NvM_JobType.READ
          block_id := block_id
          priority := b.priority
          is_immediate := b.is_immediate
          data_ptr := buffer
          submit_time_ms := s.now_ms
          timeout_ms := 2000
          retry_count := 0
          max_retries := 3 }
      match NvM_JobQueue_Enqueue job s.queue with
      | (E_OK, q2) =>
        (E_OK,
          { s with
            queue := q2
            job_results := fun i =>
              if i = block_id then NVM_REQ_PENDING else s.job_results i })
      | (r, q2) => (r, { s with queue := q2 })

/-- NvM_WriteBlock from nvm.c: validate, enqueue a write job, mark Pending.
There is no write-protection check here. -/
def NvM_WriteBlock (block_id : Nat) (buffer : List Nat) (s : NvMState) :
    Std_ReturnType × NvMState :=
  if s.initialized = false then (E_NOT_OK, s)
  else
    match find_block block_id s.blocks with
    | none => (E_NOT_OK, s)
    | some b =>
      let job : NvM_Job :=
        { job_type := NvM_JobType.WRITE
          block_id := block_id
          priority := b.priority
          is_immediate := b.is_immediate
          data_ptr := buffer
          submit_time_ms := s.now_ms
          timeout_ms := 3000
          retry_count := 0
          max_retries := 3 }
      match NvM_JobQueue_Enqueue job s.queue with
      | (E_OK, q2) =>
        (E_OK,
          { s with
            queue := q2
            job_results := fun i =>
              if i = block_id then NVM_REQ_PENDING else s.job_results i })
      | (r, q2) => (r, { s with queue := q2 })

/-- NvM_GetJobResult from nvm.c (NULL guard dropped; none models the output
byte left untouched on the error path). -/
def NvM_GetJobResult (block_id : Nat) (s : NvMState) : Std_ReturnType × Option Nat :=
  if NVM_MAX_BLOCKS ≤ block_id then (E_NOT_OK, none)
  else (E_OK, some (s.job_results block_id))

/-- One iteration of the dispatch loop in NvM_MainFunction: process the job,
record the per-block result (skipped for the 0xFF sentinel), update the
diagnostics, fire the (no-op) notifications. -/
def NvM_ProcessJob (job : NvM_Job) (s : NvMState) : NvMState :=
  let step :=
    match job.job_type with
    | NvM_JobType.READ => process_read_block job s
    | NvM_JobType.WRITE => process_write_block job s
    | NvM_JobType.READ_ALL => process_read_all s
    | NvM_JobType.WRITE_ALL => process_write_all s
  let ret := step.1
  let s1 := step.2
  let s2 :=
    if job.block_id = 0xFF then s1
    else
      { s1 with job_results := fun i =>
        if i = job.block_id then (if ret = E_OK then NVM_REQ_OK else NVM_REQ_NOT_OK)
        else s1.job_results i }
  { s2 with diagnostics :=
    { s2.diagnostics with
      total_jobs_processed := s2.diagnostics.total_jobs_processed + 1
      total_jobs_failed :=
        s2.diagnostics.total_jobs_failed + (if ret = E_OK then 0 else 1) } }

/-- The while-dequeue loop of NvM_MainFunction.  Processing a job never
enqueues, so draining the dequeued list in order is the loop. -/
def NvM_DrainQueue : List NvM_Job → NvMState → NvMState
  | [], s => s
  | j :: rest, s => NvM_DrainQueue rest (NvM_ProcessJob j s)

/-- NvM_MainFunction from nvm.c: timeout sweep, then drain the queue, then
refresh the depth diagnostic.  The dropped-job count returned by the timeout
sweep is discarded, as in the source. -/
def NvM_MainFunction (s : NvMState) : NvMState :=
  if s.initialized = false then s
  else
    let swept := NvM_JobQueue_CheckTimeouts s.now_ms s.queue
    let pending := swept.2.jobs
    let s2 := { s with queue := { swept.2 with jobs := [] } }
    let s3 := NvM_DrainQueue pending s2
    { s3 with diagnostics :=
      { s3.diagnostics with current_queue_depth := s3.queue.jobs.length } }

/-- RamMirrorVersioned_t from ram_mirror_seqlock.h: the 64-bit meta word
(sequence in the low half, version in the high half), the 1024-byte data
array and the checksum. -/
structure RamMirrorVersioned where
  meta : Nat
  data : List Nat
  checksum : Nat
deriving DecidableEq, Repr

/-- SeqlockStats_t counters. -/
structure SeqlockStats where
  read_count : Nat
  read_retries : Nat
  write_count : Nat
  max_retries : Nat
  data_tears : Nat
deriving DecidableEq, Repr

/-- The g_versioned_mirrors and g_seqlock_stats arrays, indexed by block id. -/
structure SeqlockVState where
  mirrors : Nat → RamMirrorVersioned
  stats : Nat → SeqlockStats

/-- The sequence half of the 64-bit meta word. -/
def metaSeq (m : Nat) : Nat :=
  m % U32

/-- The version half of the 64-bit meta word. -/
def metaVersion (m : Nat) : Nat :=
  m / U32 % U32

/-- calculate_checksum from ram_mirror_seqlock.c: byte sum over size bytes,
accumulated in a uint32. -/
def calculate_checksum (data : List Nat) (size : Nat) : Nat :=
  ((bufBytes data size).foldl (fun a b => a + b) 0) % U32

/-- RamMirror_SeqlockWriteVersioned from ram_mirror_seqlock.c.  Both halves
of the meta word are rebuilt from the values loaded at entry: the version
becomes old_ver + 1 and the sequence old_seq + 2, each wrapping as a uint32.
The intermediate odd-sequence store marking the write in progress is
superseded by the final store in this sequential model.  The NULL data guard
of the source is dropped. -/
def RamMirror_SeqlockWriteVersioned (block_id : Nat) (data : List Nat) (size : Nat)
    (st : SeqlockVState) : Std_ReturnType × SeqlockVState :=
  if NVM_MAX_BLOCKS ≤ block_id ∨ RAM_MIRROR_MAX_BLOCK_SIZE < size then (E_NOT_OK, st)
  else
    let m := st.mirrors block_id
    let old_seq := metaSeq m.meta
    let old_ver := metaVersion m.meta
    let final_meta := ((old_ver + 1) % U32) * U32 + (old_seq + 2) % U32
    let m2 : RamMirrorVersioned :=
      { meta := final_meta
        data := bufBytes data size ++ m.data.drop size
        checksum := calculate_checksum data size }
    (E_OK,
      { mirrors := fun i => if i = block_id then m2 else st.mirrors i
        stats := fun i =>
          if i = block_id then
            { st.stats i with write_count := (st.stats i).write_count + 1 }
          else st.stats i })

theorem should_trigger_disabled (c : FaultConfig) (r : Nat) (h : c.enabled = false) :
    should_trigger c r = (false, r) := by
  unfold should_trigger
  simp [h]

theorem find_config_mem {fid : Nat} {fs : FaultState} {c : FaultConfig}
    (h : find_config fid fs = some c) : c ∈ fs.configs := by
  unfold find_config at h
  exact List.mem_of_find?_eq_some h

theorem bitflipMulti_noFaults (data : List Nat) {fs : FaultState} (h : NoFaults fs) :
    FaultInj_HookAfterRead.bitflipMultiCase data fs = (false, data, fs) := by
  unfold FaultInj_HookAfterRead.bitflipMultiCase
  cases hf : find_config FAULT_P0_BITFLIP_MULTI fs with
  | none => simp
  | some c =>
    have hc : c.enabled = false := h c (find_config_mem hf)
    simp [should_trigger_disabled c fs.rand_state hc]

theorem hookAfterRead_noFaults (data : List Nat) {fs : FaultState} (h : NoFaults fs) :
    FaultInj_HookAfterRead data fs = (false, data, fs) := by
  unfold FaultInj_HookAfterRead
  cases hf : find_config FAULT_P0_BITFLIP_SINGLE fs with
  | none => simp [bitflipMulti_noFaults data h]
  | some c =>
    have hc : c.enabled = false := h c (find_config_mem hf)
    simp [should_trigger_disabled c fs.rand_state hc, bitflipMulti_noFaults data h]

theorem hookBeforeWrite_noFaults (a l : Nat) {fs : FaultState} (h : NoFaults fs) :
    FaultInj_HookBeforeWrite a l fs = (false, fs) := by
  unfold FaultInj_HookBeforeWrite
  cases hf : find_config FAULT_P0_TIMEOUT_ERASE fs with
  | none => simp
  | some c =>
    have hc : c.enabled = false := h c (find_config_mem hf)
    simp [should_trigger_disabled c fs.rand_state hc]

theorem hookAfterWrite_noFaults (a : Nat) {fs : FaultState} (h : NoFaults fs) :
    FaultInj_HookAfterWrite a fs = (false, fs) := by
  unfold FaultInj_HookAfterWrite
  cases hf : find_config FAULT_P0_POWERLOSS_PAGEPROGRAM fs with
  | none => simp
  | some c =>
    have hc : c.enabled = false := h c (find_config_mem hf)
    simp [should_trigger_disabled c fs.rand_state hc]

theorem eepRead_ok {s : SimState} (addr len : Nat) (h : NoFaults s.faults)
    (hv : validate_address s.eeprom addr len) :
    Eep_Read addr len s = (some (listBytes s.eeprom.storage addr len), s) := by
  unfold Eep_Read
  rw [if_pos hv]
  simp [FaultInj_HookBeforeRead, hookAfterRead_noFaults _ h]

theorem memIfRead_ok {s : SimState} (addr len : Nat) (h : NoFaults s.faults)
    (hv : validate_address s.eeprom addr len) :
    MemIf_Read addr len s = (some (listBytes s.eeprom.storage addr len), s) :=
  eepRead_ok addr len h hv

theorem eepWrite_ok {s : SimState} (addr : Nat) (data : List Nat) (len : Nat)
    (h : NoFaults s.faults)
    (hv : validate_address s.eeprom addr len)
    (ha : addr % EEPROM_PAGE_SIZE = 0)
    (hl : len % EEPROM_PAGE_SIZE = 0)
    (he : ∀ i < len, s.eeprom.storage (addr + i) = 0xFF) :
    Eep_Write addr data len s =
      (E_OK, { s with eeprom :=
        { s.eeprom with storage := overwriteRange s.eeprom.storage addr data len } }) := by
  unfold Eep_Write
  rw [if_pos hv]
  simp [hookBeforeWrite_noFaults _ _ h, ha, hl, he, hookAfterWrite_noFaults _ h]
  exact he

theorem memIfWrite_ok {s : SimState} (addr : Nat) (data : List Nat) (len : Nat)
    (h : NoFaults s.faults)
    (hv : validate_address s.eeprom addr len)
    (ha : addr % EEPROM_PAGE_SIZE = 0)
    (hl : len % EEPROM_PAGE_SIZE = 0)
    (he : ∀ i < len, s.eeprom.storage (addr + i) = 0xFF) :
    MemIf_Write addr data len s =
      (E_OK, { s with eeprom :=
        { s.eeprom with storage := overwriteRange s.eeprom.storage addr data len } }) :=
  eepWrite_ok addr data len h hv ha hl he

theorem eepErase_ok {s : SimState} (addr : Nat)
    (hv : validate_address s.eeprom addr EEPROM_ERASE_BLOCK_SIZE)
    (ha : addr % EEPROM_ERASE_BLOCK_SIZE = 0)
    (hend : s.eeprom.eraseCounts (addr / EEPROM_ERASE_BLOCK_SIZE) < EEPROM_ENDURANCE_CYCLES) :
    Eep_Erase addr s =
      (E_OK, { s with eeprom :=
        { s.eeprom with
          storage := overwriteRange s.eeprom.storage addr
            (List.replicate EEPROM_ERASE_BLOCK_SIZE 0xFF) EEPROM_ERASE_BLOCK_SIZE
          eraseCounts := fun b =>
            if b = addr / EEPROM_ERASE_BLOCK_SIZE then
              s.eeprom.eraseCounts b + 1
            else s.eeprom.eraseCounts b } }) := by
  unfold Eep_Erase
  rw [if_pos hv, if_pos ha, if_neg (by omega)]

theorem memIfErase_ok {s : SimState} (addr len : Nat)
    (hinit : s.eeprom.initialized = true)
    (hv : validate_address s.eeprom addr EEPROM_ERASE_BLOCK_SIZE)
    (ha : addr % EEPROM_ERASE_BLOCK_SIZE = 0)
    (hend : s.eeprom.eraseCounts (addr / EEPROM_ERASE_BLOCK_SIZE) < EEPROM_ENDURANCE_CYCLES) :
    MemIf_Erase addr len s =
      (E_OK, { s with eeprom :=
        { s.eeprom with
          storage := overwriteRange s.eeprom.storage addr
            (List.replicate EEPROM_ERASE_BLOCK_SIZE 0xFF) EEPROM_ERASE_BLOCK_SIZE
          eraseCounts := fun b =>
            if b = addr / EEPROM_ERASE_BLOCK_SIZE then
              s.eeprom.eraseCounts b + 1
            else s.eeprom.eraseCounts b } }) := by
  unfold MemIf_Erase
  rw [if_pos ⟨hinit, ha⟩]
  exact eepErase_ok addr hv ha hend

theorem overwriteRange_inside {σ : Nat → Nat} {addr len a : Nat} (data : List Nat)
    (h1 : addr ≤ a) (h2 : a < addr + len) :
    overwriteRange σ addr data len a = data.getD (a - addr) 0 := by
  unfold overwriteRange
  rw [if_pos ⟨h1, h2⟩]

theorem overwriteRange_outside {σ : Nat → Nat} {addr len a : Nat} (data : List Nat)
    (h : a < addr ∨ addr + len ≤ a) :
    overwriteRange σ addr data len a = σ a := by
  unfold overwriteRange
  rw [if_neg (by omega)]

theorem getD_replicate (n a i : Nat) (h : i < n) :
    (List.replicate n a).getD i 0 = a := by
  rw [List.getD_eq_getElem?_getD, List.getElem?_replicate, if_pos h]
  rfl

theorem listBytes_length (σ : Nat → Nat) (addr len : Nat) :
    (listBytes σ addr len).length = len := by
  unfold listBytes
  simp

theorem bufBytes_self (data : List Nat) : bufBytes data data.length = data := by
  unfold bufBytes
  apply List.ext_getElem
  · simp
  · intro i h1 h2
    simp [List.getD_eq_getElem?_getD, List.getElem?_eq_getElem, h2]

theorem listBytes_congr {σ τ : Nat → Nat} (addr len : Nat)
    (h : ∀ a, addr ≤ a → a < addr + len → σ a = τ a) :
    listBytes σ addr len = listBytes τ addr len := by
  unfold listBytes
  apply List.map_congr_left
  intro i hi
  have : i < len := List.mem_range.mp hi
  exact h (addr + i) (by omega) (by omega)

theorem listBytes_overwriteRange (σ : Nat → Nat) (addr : Nat) (data : List Nat)
    (len : Nat) :
    listBytes (overwriteRange σ addr data len) addr len = bufBytes data len := by
  unfold listBytes bufBytes
  apply List.map_congr_left
  intro i hi
  have : i < len := List.mem_range.mp hi
  rw [overwriteRange_inside data (by omega) (by omega)]
  congr 1
  omega

/-- The page buffer programmed for the CRC word: the CRC in host (little
endian) byte order followed by erased-state filler. -/
def crcPageBytes (crc : Nat) : List Nat :=
  [crc % U8, crc / U8 % U8] ++ List.replicate 254 0xFF

/-- Storage contents produced by a successful NvM_WriteBlockWithCrc on a slot:
erase the slot erase block, program the payload, program the CRC page. -/
def writtenStorage (σ : Nat → Nat) (offset : Nat) (data : List Nat) (size : Nat)
    (crc_type : NvM_CrcType) : Nat → Nat :=
  let σe := overwriteRange σ offset (List.replicate EEPROM_ERASE_BLOCK_SIZE 0xFF)
    EEPROM_ERASE_BLOCK_SIZE
  let σd := overwriteRange σe offset data size
  if crc_type = NvM_CrcType.NONE then σd
  else overwriteRange σd (offset + size)
    (crcPageBytes (Crc16_Calculate (bufBytes data size))) 256

/-- Wear counters after one erase of the block holding the slot. -/
def bumpErase (counts : Nat → Nat) (idx : Nat) : Nat → Nat :=
  fun b => if b = idx then counts b + 1 else counts b

theorem crc16ShiftBit_lt (c : Nat) : crc16ShiftBit c < U16 := by
  unfold crc16ShiftBit U16
  split <;> exact Nat.mod_lt _ (by norm_num)

theorem crc16ShiftBits_lt (n : Nat) : ∀ c, c < U16 → crc16ShiftBits n c < U16 := by
  induction n with
  | zero => intro c h; exact h
  | succ n ih => intro c _; exact ih _ (crc16ShiftBit_lt c)

theorem crc16Step_lt (c b : Nat) : crc16Step c b < U16 := by
  unfold crc16Step
  exact crc16ShiftBits_lt 8 _ (Nat.mod_lt _ (by norm_num [U16]))

theorem crc16_foldl_lt (l : List Nat) : ∀ c, c < U16 → l.foldl crc16Step c < U16 := by
  induction l with
  | nil => intro c h; exact h
  | cons b rest ih =>
    intro c _
    rw [List.foldl_cons]
    exact ih _ (crc16Step_lt c b)

theorem Crc16_Calculate_lt (data : List Nat) : Crc16_Calculate data < U16 :=
  crc16_foldl_lt data 0xFFFF (by norm_num [U16])

theorem writeBlockWithCrc_ok {s : SimState} (offset : Nat) (data : List Nat)
    (size : Nat) (crc_type : NvM_CrcType)
    (hnf : NoFaults s.faults)
    (hinit : s.eeprom.initialized = true)
    (halign : offset % EEPROM_ERASE_BLOCK_SIZE = 0)
    (hcap : offset + EEPROM_ERASE_BLOCK_SIZE ≤ EEPROM_CAPACITY_BYTES)
    (hpage : size % EEPROM_PAGE_SIZE = 0)
    (hfit : size + crcSizeOf crc_type ≤ EEPROM_BLOCK_SLOT_SIZE)
    (hend : s.eeprom.eraseCounts (offset / EEPROM_ERASE_BLOCK_SIZE) <
      EEPROM_ENDURANCE_CYCLES) :
    NvM_WriteBlockWithCrc offset data size crc_type s =
      (E_OK, { s with eeprom :=
        { s.eeprom with
          storage := writtenStorage s.eeprom.storage offset data size crc_type
          eraseCounts := bumpErase s.eeprom.eraseCounts
            (offset / EEPROM_ERASE_BLOCK_SIZE) } }) := by
  have hcap4 : offset + 1024 ≤ 4096 := hcap
  have hpage256 : size % 256 = 0 := hpage
  have halign1024 : offset % 1024 = 0 := halign
  have hsz1024 : size ≤ 1024 := by
    have := hfit
    cases crc_type <;> simp [crcSizeOf, EEPROM_BLOCK_SLOT_SIZE] at this <;> omega
  have hsz768 : crc_type ≠ NvM_CrcType.NONE → size + 256 ≤ 1024 := by
    intro hne
    have := hfit
    cases crc_type with
    | NONE => exact absurd rfl hne
    | CRC8 => simp [crcSizeOf, EEPROM_BLOCK_SLOT_SIZE] at this; omega
    | CRC16 => simp [crcSizeOf, EEPROM_BLOCK_SLOT_SIZE] at this; omega
    | CRC32 => simp [crcSizeOf, EEPROM_BLOCK_SLOT_SIZE] at this; omega
  have hv1 : validate_address s.eeprom offset EEPROM_ERASE_BLOCK_SIZE := by
    refine ⟨hinit, ?_, ?_⟩
    · show offset < 4096
      omega
    · show (offset + 1024) % 4294967296 ≤ 4096
      rw [Nat.mod_eq_of_lt (by omega)]
      omega
  have h1 := memIfErase_ok (s := s) offset size hinit hv1 halign hend
  set s1 : SimState := { s with eeprom :=
    { s.eeprom with
      storage := overwriteRange s.eeprom.storage offset
        (List.replicate EEPROM_ERASE_BLOCK_SIZE 0xFF) EEPROM_ERASE_BLOCK_SIZE
      eraseCounts := fun b =>
        if b = offset / EEPROM_ERASE_BLOCK_SIZE then s.eeprom.eraseCounts b + 1
        else s.eeprom.eraseCounts b } } with hs1
  have hnf1 : NoFaults s1.faults := hnf
  have hinit1 : s1.eeprom.initialized = true := hinit
  have herased1 : ∀ i < size, s1.eeprom.storage (offset + i) = 0xFF := by
    intro i hi
    show overwriteRange s.eeprom.storage offset
      (List.replicate EEPROM_ERASE_BLOCK_SIZE 0xFF) EEPROM_ERASE_BLOCK_SIZE
      (offset + i) = 0xFF
    rw [overwriteRange_inside _ (by omega) (by show offset + i < offset + 1024; omega)]
    have : offset + i - offset = i := by omega
    rw [this]
    exact getD_replicate _ _ _ (by show i < 1024; omega)
  have hv2 : validate_address s1.eeprom offset size := by
    refine ⟨hinit1, ?_, ?_⟩
    · show offset < 4096
      omega
    · show (offset + size) % 4294967296 ≤ 4096
      rw [Nat.mod_eq_of_lt (by omega)]
      omega
  have h2 := memIfWrite_ok (s := s1) offset data size hnf1 hv2
    (show offset % 256 = 0 by omega) hpage256 herased1
  set s2 : SimState := { s1 with eeprom :=
    { s1.eeprom with
      storage := overwriteRange s1.eeprom.storage offset data size } } with hs2
  cases hC : decide (crc_type = NvM_CrcType.NONE) with
  | true =>
    have hcn : crc_type = NvM_CrcType.NONE := of_decide_eq_true hC
    subst hcn
    unfold NvM_WriteBlockWithCrc
    simp only [h1, h2]
    simp [writtenStorage, s2, s1]
    rfl
  | false =>
    have hcn : crc_type ≠ NvM_CrcType.NONE := of_decide_eq_false hC
    have hnf2 : NoFaults s2.faults := hnf
    have hinit2 : s2.eeprom.initialized = true := hinit
    have herased2 : ∀ i < 256, s2.eeprom.storage (offset + size + i) = 0xFF := by
      intro i hi
      show overwriteRange s1.eeprom.storage offset data size (offset + size + i) = 0xFF
      rw [overwriteRange_outside _ (by omega)]
      show overwriteRange s.eeprom.storage offset
        (List.replicate EEPROM_ERASE_BLOCK_SIZE 0xFF) EEPROM_ERASE_BLOCK_SIZE
        (offset + size + i) = 0xFF
      have h768 := hsz768 hcn
      rw [overwriteRange_inside _ (by omega)
        (by show offset + size + i < offset + 1024; omega)]
      exact getD_replicate _ _ _ (by show offset + size + i - offset < 1024; omega)
    have hv3 : validate_address s2.eeprom (offset + size) 256 := by
      have h768 := hsz768 hcn
      refine ⟨hinit2, ?_, ?_⟩
      · show offset + size < 4096
        omega
      · show (offset + size + 256) % 4294967296 ≤ 4096
        rw [Nat.mod_eq_of_lt (by omega)]
        omega
    have h3 := memIfWrite_ok (s := s2) (offset + size)
      (crcPageBytes (Crc16_Calculate (bufBytes data size))) 256 hnf2 hv3
      (show (offset + size) % 256 = 0 by omega) (by rfl) herased2
    unfold NvM_WriteBlockWithCrc
    simp only [h1, h2]
    simp only [if_neg hcn]
    have hco : (offset + size) % 256 = 0 := by omega
    rw [if_pos hco]
    simp only [crcPageBytes] at h3
    simp only [h3]
    simp [writtenStorage, if_neg hcn, crcPageBytes, s2, s1]
    rfl

theorem writtenStorage_payload (σ : Nat → Nat) (offset : Nat) (data : List Nat)
    (size : Nat) (ct : NvM_CrcType) (a : Nat) (h1 : offset ≤ a) (h2 : a < offset + size) :
    writtenStorage σ offset data size ct a = data.getD (a - offset) 0 := by
  unfold writtenStorage
  by_cases hc : ct = NvM_CrcType.NONE
  · simp only [if_pos hc]
    exact overwriteRange_inside _ h1 h2
  · simp only [if_neg hc]
    rw [overwriteRange_outside _ (Or.inl (by omega))]
    exact overwriteRange_inside _ h1 h2

theorem listBytes_writtenStorage (σ : Nat → Nat) (offset : Nat) (data : List Nat)
    (size : Nat) (ct : NvM_CrcType) :
    listBytes (writtenStorage σ offset data size ct) offset size = bufBytes data size := by
  unfold listBytes bufBytes
  apply List.map_congr_left
  intro i hi
  have hilt : i < size := List.mem_range.mp hi
  rw [writtenStorage_payload σ offset data size ct (offset + i) (by omega) (by omega)]
  congr 1
  omega

theorem writtenStorage_crcLo (σ : Nat → Nat) (offset : Nat) (data : List Nat)
    (size : Nat) (ct : NvM_CrcType) (hc : ct ≠ NvM_CrcType.NONE) :
    writtenStorage σ offset data size ct (offset + size) =
      Crc16_Calculate (bufBytes data size) % U8 := by
  unfold writtenStorage
  simp only [if_neg hc]
  rw [overwriteRange_inside _ (by omega) (by omega)]
  simp [crcPageBytes]

theorem writtenStorage_crcHi (σ : Nat → Nat) (offset : Nat) (data : List Nat)
    (size : Nat) (ct : NvM_CrcType) (hc : ct ≠ NvM_CrcType.NONE) :
    writtenStorage σ offset data size ct (offset + size + 1) =
      Crc16_Calculate (bufBytes data size) / U8 % U8 := by
  unfold writtenStorage
  simp only [if_neg hc]
  rw [overwriteRange_inside _ (by omega) (by omega)]
  have h1 : offset + size + 1 - (offset + size) = 1 := by omega
  rw [h1]
  simp [crcPageBytes]

theorem stored16_writtenStorage (σ : Nat → Nat) (offset : Nat) (data : List Nat)
    (size : Nat) (ct : NvM_CrcType) (hc : ct ≠ NvM_CrcType.NONE) :
    stored16 (writtenStorage σ offset data size ct) (offset + size) =
      Crc16_Calculate (bufBytes data size) := by
  unfold stored16
  rw [writtenStorage_crcLo σ offset data size ct hc,
    writtenStorage_crcHi σ offset data size ct hc]
  have hlt : Crc16_Calculate (bufBytes data size) < U16 :=
    Crc16_Calculate_lt (bufBytes data size)
  have h8 : U8 = 256 := rfl
  have h16 : U16 = 65536 := rfl
  rw [h8] at *
  rw [h16] at hlt
  omega

theorem tryRead_of_stored {s : SimState} (offset size : Nat) (buf P : List Nat)
    (crc_type : NvM_CrcType)
    (hnf : NoFaults s.faults)
    (hinit : s.eeprom.initialized = true)
    (hcap1 : offset < EEPROM_CAPACITY_BYTES)
    (hcap2 : offset + size ≤ EEPROM_CAPACITY_BYTES)
    (hcap3 : crc_type ≠ NvM_CrcType.NONE → offset + size + 2 ≤ EEPROM_CAPACITY_BYTES)
    (hP : listBytes s.eeprom.storage offset size = P)
    (hstored : crc_type ≠ NvM_CrcType.NONE →
      stored16 s.eeprom.storage (offset + size) = Crc16_Calculate P) :
    NvM_TryReadBlock offset buf size crc_type s = (true, P, s) := by
  have hcap1l : offset < 4096 := hcap1
  have hcap2l : offset + size ≤ 4096 := hcap2
  have hv1 : validate_address s.eeprom offset size := by
    refine ⟨hinit, hcap1, ?_⟩
    show (offset + size) % 4294967296 ≤ 4096
    rw [Nat.mod_eq_of_lt (by omega)]
    omega
  by_cases hc : crc_type = NvM_CrcType.NONE
  · unfold NvM_TryReadBlock
    simp only [memIfRead_ok offset size hnf hv1, hP, if_pos hc]
  · have hcap3l : offset + size + 2 ≤ 4096 := hcap3 hc
    have hv2 : validate_address s.eeprom (offset + size) 2 := by
      refine ⟨hinit, ?_, ?_⟩
      · show offset + size < 4096
        omega
      · show (offset + size + 2) % 4294967296 ≤ 4096
        rw [Nat.mod_eq_of_lt (by omega)]
        omega
    have h2 := memIfRead_ok (s := s) (offset + size) 2 hnf hv2
    have hlist2 : listBytes s.eeprom.storage (offset + size) 2 =
        [s.eeprom.storage (offset + size), s.eeprom.storage (offset + size + 1)] := by
      simp [listBytes, List.range_succ]
    have hs := hstored hc
    unfold NvM_TryReadBlock
    simp only [memIfRead_ok offset size hnf hv1, hP, if_neg hc, h2, hlist2]
    have hred : [s.eeprom.storage (offset + size),
        s.eeprom.storage (offset + size + 1)].getD 0 0 % U8 +
        U8 * ([s.eeprom.storage (offset + size),
          s.eeprom.storage (offset + size + 1)].getD 1 0 % U8) =
        stored16 s.eeprom.storage (offset + size) := by
      simp [stored16, List.getD]
    rw [hred, hs]
    simp

/-- C1: with no fault injections enabled and a slot layout satisfying the
claimed preconditions (slot-aligned offset within the medium, page-aligned
payload and CRC programming, payload plus CRC within the slot, endurance of
the slot erase block not exhausted), a successful NvM_WriteBlockWithCrc
followed by NvM_TryReadBlock at the same offset, size and CRC kind yields
true with the written bytes, leaving the medium untouched. -/
theorem nvm_write_then_tryread_roundtrip
    {s s2 : SimState} (offset size : Nat) (data buf : List Nat)
    (crc_type : NvM_CrcType)
    (hnf : NoFaults s.faults)
    (hinit : s.eeprom.initialized = true)
    (halign : offset % EEPROM_BLOCK_SLOT_SIZE = 0)
    (hcap : offset + EEPROM_BLOCK_SLOT_SIZE ≤ EEPROM_CAPACITY_BYTES)
    (hpage : size % EEPROM_PAGE_SIZE = 0)
    (hfit : size + crcSizeOf crc_type ≤ EEPROM_BLOCK_SLOT_SIZE)
    (hend : s.eeprom.eraseCounts (offset / EEPROM_ERASE_BLOCK_SIZE) <
      EEPROM_ENDURANCE_CYCLES)
    (hlen : data.length = size)
    (hok : NvM_WriteBlockWithCrc offset data size crc_type s = (E_OK, s2)) :
    NvM_TryReadBlock offset buf size crc_type s2 = (true, data, s2) := by
  have hw := writeBlockWithCrc_ok offset data size crc_type hnf hinit halign hcap
    hpage hfit hend
  rw [hw] at hok
  have hs2 : s2 = { s with eeprom :=
      { s.eeprom with
        storage := writtenStorage s.eeprom.storage offset data size crc_type
        eraseCounts := bumpErase s.eeprom.eraseCounts
          (offset / EEPROM_ERASE_BLOCK_SIZE) } } := by
    have := congrArg Prod.snd hok
    exact this.symm
  subst hs2
  have hbuf : bufBytes data size = data := by
    rw [← hlen]
    exact bufBytes_self data
  have hcapl : offset + 1024 ≤ 4096 := hcap
  have hszfit : size + crcSizeOf crc_type ≤ 1024 := hfit
  have hsz1024 : size ≤ 1024 := by
    cases crc_type <;> simp [crcSizeOf] at hszfit <;> omega
  apply tryRead_of_stored (P := data)
  · exact hnf
  · exact hinit
  · show offset < 4096
    omega
  · show offset + size ≤ 4096
    omega
  · intro hcne
    show offset + size + 2 ≤ 4096
    have h1le : 1 ≤ crcSizeOf crc_type := by
      cases crc_type
      · exact absurd rfl hcne
      all_goals simp [crcSizeOf]
    have hpagel : size % 256 = 0 := hpage
    omega
  · show listBytes (writtenStorage s.eeprom.storage offset data size crc_type)
      offset size = data
    rw [listBytes_writtenStorage, hbuf]
  · intro hcne
    show stored16 (writtenStorage s.eeprom.storage offset data size crc_type)
      (offset + size) = Crc16_Calculate data
    rw [stored16_writtenStorage s.eeprom.storage offset data size crc_type hcne, hbuf]

/-- A freshly initialised simulation: erased medium, zero wear, empty fault
registry with the LCG at its seed. -/
def freshSim : SimState :=
  { eeprom := { storage := fun _ => 0xFF, eraseCounts := fun _ => 0, initialized := true }
    faults := { configs := [], rand_state := 12345, total_injected := 0 } }

/-- Concrete 256-byte payload for the C1 witness. -/
def c1Data : List Nat :=
  List.replicate 256 0xAA

theorem nvm_write_then_tryread_roundtrip_witness :
    NoFaults freshSim.faults ∧
    (NvM_WriteBlockWithCrc 0 c1Data 256 NvM_CrcType.CRC16 freshSim).1 = E_OK ∧
    NvM_TryReadBlock 0 (List.replicate 256 0) 256 NvM_CrcType.CRC16
        (NvM_WriteBlockWithCrc 0 c1Data 256 NvM_CrcType.CRC16 freshSim).2 =
      (true, c1Data,
        (NvM_WriteBlockWithCrc 0 c1Data 256 NvM_CrcType.CRC16 freshSim).2) := by
  have h1 : (NvM_WriteBlockWithCrc 0 c1Data 256 NvM_CrcType.CRC16 freshSim).1 = E_OK := by
    decide
  have hok : NvM_WriteBlockWithCrc 0 c1Data 256 NvM_CrcType.CRC16 freshSim =
      (E_OK, (NvM_WriteBlockWithCrc 0 c1Data 256 NvM_CrcType.CRC16 freshSim).2) := by
    rw [← h1]
  refine ⟨by decide, h1, ?_⟩
  exact nvm_write_then_tryread_roundtrip 0 256 c1Data (List.replicate 256 0)
    NvM_CrcType.CRC16 (by decide) rfl (by decide) (by decide) (by decide) (by decide)
    (by decide) (by decide) hok

/-- The process image at program start: every global is static-zero
initialised (g_job_results all zero, empty registry, queue empty, driver and
manager not initialised, fault registry empty with the LCG seed). -/
def initialNvMState : NvMState :=
  { blocks := []
    diagnostics :=
      { total_jobs_processed := 0
        total_jobs_failed := 0
        total_jobs_retried := 0
        current_queue_depth := 0 }
    initialized := false
    job_results := fun _ => 0
    queue := { jobs := [], max_count := 0, overflow_count := 0 }
    now_ms := 0
    sim :=
      { eeprom := { storage := fun _ => 0, eraseCounts := fun _ => 0, initialized := false }
        faults := { configs := [], rand_state := 12345, total_injected := 0 } } }

/-- C10: NvM_Init does not touch the per-block job-result array: every block
id below NVM_MAX_BLOCKS reads the same NvM_GetJobResult value right after
NvM_Init as right before it, and on a fresh start an untouched block reports
NVM_REQ_OK (0), which is not NVM_REQ_PENDING. -/
theorem nvm_init_leaves_job_results :
    (∀ s : NvMState, (NvM_Init s).job_results = s.job_results) ∧
    (∀ (s : NvMState) (b : Nat), b < NVM_MAX_BLOCKS →
      NvM_GetJobResult b (NvM_Init s) = NvM_GetJobResult b s) ∧
    (∀ b : Nat, b < NVM_MAX_BLOCKS →
      NvM_GetJobResult b initialNvMState = (E_OK, some NVM_REQ_OK)) ∧
    NVM_REQ_OK ≠ NVM_REQ_PENDING := by
  refine ⟨fun s => rfl, fun s b hb => rfl, fun b hb => ?_, by decide⟩
  unfold NvM_GetJobResult
  rw [if_neg (by omega)]
  rfl

theorem nvm_init_leaves_job_results_witness :
    NvM_GetJobResult 3 (NvM_Init initialNvMState) = NvM_GetJobResult 3 initialNvMState ∧
    NvM_GetJobResult 3 initialNvMState = (E_OK, some NVM_REQ_OK) :=
  ⟨nvm_init_leaves_job_results.2.1 initialNvMState 3 (by decide),
   nvm_init_leaves_job_results.2.2.1 3 (by decide)⟩

/-- An all-zero seqlock statistics record. -/
def zeroSeqlockStats : SeqlockStats :=
  { read_count := 0, read_retries := 0, write_count := 0, max_retries := 0, data_tears := 0 }

/-- Versioned-mirror state whose block 0 sits at the largest 32-bit version. -/
def c9WrapState : SeqlockVState :=
  { mirrors := fun _ => { meta := (U32 - 1) * U32, data := [], checksum := 0 }
    stats := fun _ => zeroSeqlockStats }

/-- C9 counterexample: a valid RamMirror_SeqlockWriteVersioned call on a
mirror whose version is 2^32 - 1 is accepted and wraps the version to 0, so
the version does not strictly increase on that call. -/
theorem seqlock_version_wrap_counterexample :
    (RamMirror_SeqlockWriteVersioned 0 [1] 1 c9WrapState).1 = E_OK ∧
    metaVersion ((c9WrapState.mirrors 0).meta) = U32 - 1 ∧
    metaVersion (((RamMirror_SeqlockWriteVersioned 0 [1] 1 c9WrapState).2).mirrors 0).meta = 0 ∧
    ¬ metaVersion ((c9WrapState.mirrors 0).meta) <
        metaVersion (((RamMirror_SeqlockWriteVersioned 0 [1] 1 c9WrapState).2).mirrors 0).meta := by
  decide

/-- C9 amended: every accepted versioned writer call increments the version
field of the 64-bit meta word modulo 2^32 (whether or not the payload
changed); it strictly increases exactly as long as the previous version is
below 2^32 - 1. -/
theorem seqlock_write_versioned_increments
    (st : SeqlockVState) (block_id size : Nat) (data : List Nat)
    (hb : block_id < NVM_MAX_BLOCKS) (hs : size ≤ RAM_MIRROR_MAX_BLOCK_SIZE) :
    (RamMirror_SeqlockWriteVersioned block_id data size st).1 = E_OK ∧
    metaVersion (((RamMirror_SeqlockWriteVersioned block_id data size st).2).mirrors
        block_id).meta =
      (metaVersion ((st.mirrors block_id).meta) + 1) % U32 ∧
    (metaVersion ((st.mirrors block_id).meta) < U32 - 1 →
      metaVersion ((st.mirrors block_id).meta) <
        metaVersion (((RamMirror_SeqlockWriteVersioned block_id data size st).2).mirrors
          block_id).meta) := by
  have hbl : block_id < 16 := hb
  have hsl : size ≤ 1024 := hs
  have hguard : ¬ (NVM_MAX_BLOCKS ≤ block_id ∨ RAM_MIRROR_MAX_BLOCK_SIZE < size) := by
    push_neg
    exact ⟨hb, hs⟩
  unfold RamMirror_SeqlockWriteVersioned
  rw [if_neg hguard]
  simp only []
  refine ⟨trivial, ?_, ?_⟩
  · show metaVersion (((metaVersion ((st.mirrors block_id).meta) + 1) % U32) * U32 +
      (metaSeq ((st.mirrors block_id).meta) + 2) % U32) =
      (metaVersion ((st.mirrors block_id).meta) + 1) % U32
    unfold metaVersion metaSeq U32
    omega
  · intro hlt
    show metaVersion ((st.mirrors block_id).meta) <
      metaVersion (((metaVersion ((st.mirrors block_id).meta) + 1) % U32) * U32 +
        (metaSeq ((st.mirrors block_id).meta) + 2) % U32)
    unfold metaVersion U32 at hlt
    unfold metaVersion metaSeq U32
    omega

/-- Versioned-mirror state with all meta words zero. -/
def seqlockZeroState : SeqlockVState :=
  { mirrors := fun _ => { meta := 0, data := [], checksum := 0 }
    stats := fun _ => zeroSeqlockStats }

theorem seqlock_write_versioned_increments_witness :
    (RamMirror_SeqlockWriteVersioned 0 [7] 1 seqlockZeroState).1 = E_OK ∧
    metaVersion (((RamMirror_SeqlockWriteVersioned 0 [7] 1 seqlockZeroState).2).mirrors 0).meta =
      (metaVersion ((seqlockZeroState.mirrors 0).meta) + 1) % U32 ∧
    metaVersion ((seqlockZeroState.mirrors 0).meta) <
      metaVersion (((RamMirror_SeqlockWriteVersioned 0 [7] 1 seqlockZeroState).2).mirrors 0).meta :=
  ⟨(seqlock_write_versioned_increments seqlockZeroState 0 1 [7] (by decide) (by decide)).1,
   (seqlock_write_versioned_increments seqlockZeroState 0 1 [7] (by decide) (by decide)).2.1,
   (seqlock_write_versioned_increments seqlockZeroState 0 1 [7] (by decide) (by decide)).2.2
     (by decide)⟩

/-- A Native block configuration with CRC-32 whose payload plus 4-byte CRC
exceeds the slot, while payload plus the 2 bytes the validator assumes does
not. -/
def c8Cfg : NvM_BlockConfig :=
  { block_id := 1
    block_size := 1021
    block_type := NvM_BlockType.NATIVE
    crc_type := NvM_CrcType.CRC32
    priority := 0
    is_immediate := false
    is_write_protected := false
    ram_mirror_ptr := []
    rom_block_ptr := none
    rom_block_size := 0
    eeprom_offset := 0
    redundant_eeprom_offset := 0
    version_control_offset := 0
    active_version := 0
    dataset_count := 0
    active_dataset_index := 0
    state := NvM_BlockState.UNINITIALIZED
    erase_count := 0 }

/-- C8 counterexample: a CRC-32 configuration with block_size + crc_size =
1021 + 4 > 1024 = SLOT_SIZE passes EEPROM_ValidateBlockConfig and is
registered with E_OK, because the validator assumes a 2-byte CRC for every
CRC kind. -/
theorem register_block_crc32_oversize_accepted :
    EEPROM_BLOCK_SLOT_SIZE < c8Cfg.block_size + crcSizeOf c8Cfg.crc_type ∧
    EEPROM_ValidateBlockConfig c8Cfg = true ∧
    (NvM_RegisterBlock c8Cfg { initialNvMState with initialized := true }).1 = E_OK := by
  decide

/-- C8 amended: registration is rejected synchronously exactly on the bound
the code checks: block_size plus the 2-byte CRC size the validator assumes
for every CRC kind.  Whenever block_size + 2 > SLOT_SIZE the registration
returns E_NOT_OK and leaves the manager state unchanged. -/
theorem register_block_rejects_oversize
    (cfg : NvM_BlockConfig) (s : NvMState)
    (h : EEPROM_BLOCK_SLOT_SIZE < cfg.block_size + 2) :
    NvM_RegisterBlock cfg s = (E_NOT_OK, s) := by
  have hlit : (1024 : Nat) < cfg.block_size + 2 := h
  unfold NvM_RegisterBlock
  by_cases hfull : NVM_MAX_BLOCKS ≤ s.blocks.length
  · rw [if_pos hfull]
  · rw [if_neg hfull]
    have hv : EEPROM_ValidateBlockConfig cfg = false := by
      unfold EEPROM_ValidateBlockConfig
      by_cases ha : cfg.eeprom_offset % EEPROM_BLOCK_SLOT_SIZE = 0
      · rw [if_pos ha]
        simp only []
        rw [if_pos (show cfg.eeprom_offset + EEPROM_BLOCK_SLOT_SIZE <
          cfg.eeprom_offset + cfg.block_size + 2 by
            show cfg.eeprom_offset + 1024 < cfg.eeprom_offset + cfg.block_size + 2
            omega)]
      · rw [if_neg ha]
    rw [if_pos hv]

theorem register_block_rejects_oversize_witness :
    NvM_RegisterBlock { c8Cfg with block_size := 1023 }
        { initialNvMState with initialized := true } =
      (E_NOT_OK, { initialNvMState with initialized := true }) :=
  register_block_rejects_oversize { c8Cfg with block_size := 1023 }
    { initialNvMState with initialized := true } (by decide)

/-- A Dataset block whose next round-robin slot lies beyond the medium, so
the next write must fail. -/
def c7Block : NvM_BlockConfig :=
  { block_id := 0
    block_size := 256
    block_type := NvM_BlockType.DATASET
    crc_type := NvM_CrcType.CRC16
    priority := 0
    is_immediate := false
    is_write_protected := false
    ram_mirror_ptr := []
    rom_block_ptr := none
    rom_block_size := 0
    eeprom_offset := 3072
    redundant_eeprom_offset := 0
    version_control_offset := 0
    active_version := 0
    dataset_count := 2
    active_dataset_index := 0
    state := NvM_BlockState.VALID
    erase_count := 0 }

/-- C7 counterexample: a failing NvM_WriteDatasetBlock returns E_NOT_OK and
retains the previous active index, but the block state is left at its
previous value (VALID here) instead of being set to INVALID. -/
theorem dataset_write_fail_state_counterexample :
    (NvM_WriteDatasetBlock c7Block (List.replicate 256 0xBB) freshSim).1 = E_NOT_OK ∧
    (NvM_WriteDatasetBlock c7Block (List.replicate 256 0xBB) freshSim).2.1 = c7Block ∧
    c7Block.state = NvM_BlockState.VALID ∧
    (NvM_WriteDatasetBlock c7Block (List.replicate 256 0xBB) freshSim).2.1.state ≠
      NvM_BlockState.INVALID ∧
    (NvM_WriteDatasetBlock c7Block (List.replicate 256 0xBB) freshSim).2.1.active_dataset_index =
      c7Block.active_dataset_index := by
  decide

/-- C7 amended: when the slot write inside NvM_WriteDatasetBlock fails, the
call returns E_NOT_OK and hands back the block record unchanged: the previous
active_dataset_index is retained and the state keeps its previous value (it
is not set to INVALID). -/
theorem dataset_write_fail_leaves_block
    (b : NvM_BlockConfig) (data : List Nat) (s : SimState)
    (hfail : (NvM_WriteBlockWithCrc (datasetTargetOffset b) data b.block_size
      b.crc_type s).1 = E_NOT_OK) :
    NvM_WriteDatasetBlock b data s =
      (E_NOT_OK, b,
        (NvM_WriteBlockWithCrc (datasetTargetOffset b) data b.block_size
          b.crc_type s).2) := by
  unfold NvM_WriteDatasetBlock
  cases hw : NvM_WriteBlockWithCrc (datasetTargetOffset b) data b.block_size b.crc_type s with
  | mk r s1 =>
    rw [hw] at hfail
    simp only [hw]
    cases r with
    | E_OK => simp at hfail
    | E_NOT_OK => rfl
    | E_PENDING => rfl

theorem dataset_write_fail_leaves_block_witness :
    NvM_WriteDatasetBlock c7Block (List.replicate 256 0xCC) freshSim =
      (E_NOT_OK, c7Block,
        (NvM_WriteBlockWithCrc (datasetTargetOffset c7Block) (List.replicate 256 0xCC)
          c7Block.block_size c7Block.crc_type freshSim).2) :=
  dataset_write_fail_leaves_block c7Block (List.replicate 256 0xCC) freshSim (by decide)

theorem elapsedMs_self (n : Nat) : elapsedMs n n = 0 := by
  unfold elapsedMs U32
  omega

/-- A registered write-protected Native block. -/
def c6Block : NvM_BlockConfig :=
  { block_id := 0
    block_size := 256
    block_type := NvM_BlockType.NATIVE
    crc_type := NvM_CrcType.CRC16
    priority := 5
    is_immediate := false
    is_write_protected := true
    ram_mirror_ptr := []
    rom_block_ptr := none
    rom_block_size := 0
    eeprom_offset := 0
    redundant_eeprom_offset := 0
    version_control_offset := 0
    active_version := 0
    dataset_count := 0
    active_dataset_index := 0
    state := NvM_BlockState.UNINITIALIZED
    erase_count := 0 }

/-- An initialised manager holding only the protected block. -/
def c6State : NvMState :=
  { initialNvMState with initialized := true, blocks := [c6Block], sim := freshSim }

/-- C6 counterexample: NvM_WriteBlock on a write-protected block does not
return Err at the submitting call: it returns E_OK, enqueues the job, and
marks the result Pending.  The protection check only runs at dispatch. -/
theorem write_protected_submission_accepted :
    c6Block.is_write_protected = true ∧
    (NvM_WriteBlock 0 (List.replicate 256 1) c6State).1 = E_OK ∧
    (NvM_WriteBlock 0 (List.replicate 256 1) c6State).2.queue.jobs.length = 1 ∧
    (NvM_WriteBlock 0 (List.replicate 256 1) c6State).2.job_results 0 = NVM_REQ_PENDING ∧
    E_OK ≠ E_NOT_OK := by
  decide

/-- C6 amended: a write_block submission for a write-protected block is
accepted: it returns E_OK, enqueues the job and sets the result word to
Pending.  The bad-argument rejection happens at dispatch: process_write_block
returns E_NOT_OK for the protected block, and the next NvM_MainFunction tick
turns the job result into NVM_REQ_NOT_OK. -/
theorem write_protected_rejected_at_dispatch
    (s : NvMState) (id : Nat) (data : List Nat) (b : NvM_BlockConfig)
    (hinit : s.initialized = true)
    (hfind : find_block id s.blocks = some b)
    (hprot : b.is_write_protected = true)
    (hq : s.queue.jobs = [])
    (hid : id ≠ 0xFF) :
    (NvM_WriteBlock id data s).1 = E_OK ∧
    (NvM_WriteBlock id data s).2.job_results id = NVM_REQ_PENDING ∧
    (∀ (job : NvM_Job) (s2 : NvMState), find_block job.block_id s2.blocks = some b →
      (process_write_block job s2).1 = E_NOT_OK) ∧
    (NvM_MainFunction (NvM_WriteBlock id data s).2).job_results id = NVM_REQ_NOT_OK := by
  have hdispatch2 : ∀ (job : NvM_Job) (s2 : NvMState),
      find_block job.block_id s2.blocks = some b →
      process_write_block job s2 = (E_NOT_OK, s2) := by
    intro job s2 hf
    unfold process_write_block
    simp only [hf]
    rw [if_pos hprot]
  have hdispatch : ∀ (job : NvM_Job) (s2 : NvMState),
      find_block job.block_id s2.blocks = some b →
      (process_write_block job s2).1 = E_NOT_OK := by
    intro job s2 hf
    rw [hdispatch2 job s2 hf]
  have hninit : ¬ s.initialized = false := by simp [hinit]
  have hroom : ¬ NVM_JOB_QUEUE_SIZE ≤ s.queue.jobs.length := by
    rw [hq]
    decide
  have henq : NvM_JobQueue_Enqueue
      { job_type := NvM_JobType.WRITE, block_id := id, priority := b.priority, is_immediate := b.is_immediate, data_ptr := data, submit_time_ms := s.now_ms, timeout_ms := 3000, retry_count := 0, max_retries := 3 } s.queue =
      (E_OK, { s.queue with
        jobs := [{ job_type := NvM_JobType.WRITE, block_id := id, priority := b.priority, is_immediate := b.is_immediate, data_ptr := data, submit_time_ms := s.now_ms, timeout_ms := 3000, retry_count := 0, max_retries := 3 }],
        max_count := if s.queue.max_count < 1 then 1 else s.queue.max_count }) := by
    unfold NvM_JobQueue_Enqueue
    rw [if_neg hroom]
    simp [find_insert_position, hq]
  have hW : NvM_WriteBlock id data s =
      (E_OK, { s with
        queue := { s.queue with
          jobs := [{ job_type := NvM_JobType.WRITE, block_id := id, priority := b.priority, is_immediate := b.is_immediate, data_ptr := data, submit_time_ms := s.now_ms, timeout_ms := 3000, retry_count := 0, max_retries := 3 }],
          max_count := if s.queue.max_count < 1 then 1 else s.queue.max_count },
        job_results := fun i => if i = id then NVM_REQ_PENDING else s.job_results i }) := by
    unfold NvM_WriteBlock
    rw [if_neg hninit, hfind]
    simp only [henq]
  rw [hW]
  refine ⟨rfl, by simp, hdispatch, ?_⟩
  unfold NvM_MainFunction
  rw [if_neg (by simp [hinit])]
  simp only [NvM_JobQueue_CheckTimeouts, checkTimeoutsList, elapsedMs_self]
  norm_num
  simp only [NvM_DrainQueue, NvM_ProcessJob]
  rw [hdispatch2 _ _ (by simpa using hfind)]
  simp [hid]

theorem write_protected_rejected_at_dispatch_witness :
    (NvM_WriteBlock 0 (List.replicate 256 1) c6State).1 = E_OK ∧
    (NvM_WriteBlock 0 (List.replicate 256 1) c6State).2.job_results 0 = NVM_REQ_PENDING ∧
    (NvM_MainFunction (NvM_WriteBlock 0 (List.replicate 256 1) c6State).2).job_results 0 =
      NVM_REQ_NOT_OK :=
  have h := write_protected_rejected_at_dispatch c6State 0 (List.replicate 256 1) c6Block
    rfl (by decide) rfl rfl (by decide)
  ⟨h.1, h.2.1, h.2.2.2⟩

/-- A sequence of NvM_WriteDatasetBlock calls with the given payloads; the
Bool records whether every call returned E_OK. -/
def datasetWriteTrace : NvM_BlockConfig → SimState → List (List Nat) →
    NvM_BlockConfig × SimState × Bool
  | b, s, [] => (b, s, true)
  | b, s, d :: ds =>
    match NvM_WriteDatasetBlock b d s with
    | (r, b2, s2) =>
      match datasetWriteTrace b2 s2 ds with
      | (b3, s3, ok) => (b3, s3, decide (r = E_OK) && ok)

theorem writeDataset_ok_inv {b : NvM_BlockConfig} {data : List Nat} {s : SimState}
    {b2 : NvM_BlockConfig} {s2 : SimState}
    (h : NvM_WriteDatasetBlock b data s = (E_OK, b2, s2)) :
    b2 = { b with
      active_dataset_index := datasetNextIndex b
      erase_count := b.erase_count + 1
      state := NvM_BlockState.VALID } := by
  unfold NvM_WriteDatasetBlock at h
  cases hw : NvM_WriteBlockWithCrc (datasetTargetOffset b) data b.block_size b.crc_type s with
  | mk r s1 =>
    rw [hw] at h
    cases r with
    | E_OK =>
      simp only [] at h
      have h2 := congrArg (fun p => p.2.1) h
      exact h2.symm
    | E_NOT_OK => simp at h
    | E_PENDING => simp at h

theorem mod_add_mod_left (a b n : Nat) : (a % n + b) % n = (a + b) % n := by
  conv_rhs => rw [Nat.add_mod]
  conv_lhs => rw [Nat.add_mod, Nat.mod_mod_of_dvd _ dvd_rfl]

/-- C3: starting from live index i0 < N, after k successful
NvM_WriteDatasetBlock calls the live index is (i0 + k) mod N, and for every
j the (j+1)-th call programs the slot at
eeprom_offset + ((i0 + j + 1) mod N) * SLOT_SIZE. -/
theorem dataset_roundrobin
    (ds : List (List Nat)) (b : NvM_BlockConfig) (s : SimState)
    (hcount : 0 < b.dataset_count)
    (hidx : b.active_dataset_index < b.dataset_count)
    (hok : (datasetWriteTrace b s ds).2.2 = true) :
    (datasetWriteTrace b s ds).1.active_dataset_index =
      (b.active_dataset_index + ds.length) % b.dataset_count ∧
    (∀ k, k < ds.length →
      datasetTargetOffset (datasetWriteTrace b s (ds.take k)).1 =
        b.eeprom_offset +
          ((b.active_dataset_index + (k + 1)) % b.dataset_count) *
            EEPROM_BLOCK_SLOT_SIZE) := by
  induction ds generalizing b s with
  | nil =>
    refine ⟨?_, ?_⟩
    · simp [datasetWriteTrace, Nat.mod_eq_of_lt hidx]
    · intro k hk
      simp at hk
  | cons d ds ih =>
    cases hw : NvM_WriteDatasetBlock b d s with
    | mk r rest =>
      obtain ⟨b2, s2⟩ := rest
      have htr : datasetWriteTrace b s (d :: ds) =
          ((datasetWriteTrace b2 s2 ds).1, (datasetWriteTrace b2 s2 ds).2.1,
            decide (r = E_OK) && (datasetWriteTrace b2 s2 ds).2.2) := by
        conv_lhs => rw [datasetWriteTrace]
        rw [hw]
      rw [htr] at hok
      dsimp only [] at hok
      have hr : r = E_OK := by
        cases r
        · rfl
        · simp at hok
        · simp at hok
      subst hr
      have hok2 : (datasetWriteTrace b2 s2 ds).2.2 = true := by
        rw [Bool.and_eq_true] at hok
        exact hok.2
      have hb2 := writeDataset_ok_inv hw
      have hcount2 : 0 < b2.dataset_count := by rw [hb2]; exact hcount
      have hidx2 : b2.active_dataset_index < b2.dataset_count := by
        rw [hb2]
        show (b.active_dataset_index + 1) % b.dataset_count < b.dataset_count
        exact Nat.mod_lt _ hcount
      have hmain := ih b2 s2 hcount2 hidx2 hok2
      have hf1 : b2.active_dataset_index =
          (b.active_dataset_index + 1) % b.dataset_count := by
        rw [hb2]
        exact rfl
      have hf2 : b2.dataset_count = b.dataset_count := by
        rw [hb2]
      have hf3 : b2.eeprom_offset = b.eeprom_offset := by
        rw [hb2]
      refine ⟨?_, ?_⟩
      · rw [htr]
        dsimp only []
        rw [hmain.1, hf1, hf2, mod_add_mod_left, List.length_cons]
        have heq : b.active_dataset_index + 1 + ds.length =
            b.active_dataset_index + (ds.length + 1) := by omega
        rw [heq]
      · intro k hk
        cases k with
        | zero =>
          simp [datasetWriteTrace, datasetTargetOffset, datasetNextIndex]
        | succ k2 =>
          have hk2 : k2 < ds.length := by simpa using hk
          have htake : datasetWriteTrace b s ((d :: ds).take (k2 + 1)) =
              ((datasetWriteTrace b2 s2 (ds.take k2)).1,
                (datasetWriteTrace b2 s2 (ds.take k2)).2.1,
                decide ((E_OK : Std_ReturnType) = E_OK) &&
                  (datasetWriteTrace b2 s2 (ds.take k2)).2.2) := by
            show datasetWriteTrace b s (d :: ds.take k2) = _
            conv_lhs => rw [datasetWriteTrace]
            rw [hw]
          rw [htake]
          dsimp only []
          have g2 := hmain.2 k2 hk2
          rw [hf1, hf2, hf3, mod_add_mod_left] at g2
          rw [g2]
          have heq : b.active_dataset_index + 1 + (k2 + 1) =
              b.active_dataset_index + (k2 + 1 + 1) := by omega
          rw [heq]

/-- A Dataset block with four slots filling the whole 4KB medium. -/
def c3Block : NvM_BlockConfig :=
  { block_id := 2
    block_size := 256
    block_type := NvM_BlockType.DATASET
    crc_type := NvM_CrcType.CRC16
    priority := 0
    is_immediate := false
    is_write_protected := false
    ram_mirror_ptr := []
    rom_block_ptr := none
    rom_block_size := 0
    eeprom_offset := 0
    redundant_eeprom_offset := 0
    version_control_offset := 0
    active_version := 0
    dataset_count := 4
    active_dataset_index := 0
    state := NvM_BlockState.UNINITIALIZED
    erase_count := 0 }

/-- The three payloads written in the C3 witness run. -/
def c3Payloads : List (List Nat) :=
  [List.replicate 256 0xAA, List.replicate 256 0xBB, List.replicate 256 0xCC]

theorem dataset_roundrobin_witness :
    (datasetWriteTrace c3Block freshSim c3Payloads).2.2 = true ∧
    (datasetWriteTrace c3Block freshSim c3Payloads).1.active_dataset_index =
      (c3Block.active_dataset_index + c3Payloads.length) % c3Block.dataset_count ∧
    datasetTargetOffset (datasetWriteTrace c3Block freshSim (c3Payloads.take 2)).1 =
      c3Block.eeprom_offset +
        ((c3Block.active_dataset_index + (2 + 1)) % c3Block.dataset_count) *
          EEPROM_BLOCK_SLOT_SIZE :=
  have hok : (datasetWriteTrace c3Block freshSim c3Payloads).2.2 = true := by decide
  ⟨hok,
   (dataset_roundrobin c3Payloads c3Block freshSim (by decide) (by decide) hok).1,
   (dataset_roundrobin c3Payloads c3Block freshSim (by decide) (by decide) hok).2 2
     (by decide)⟩

/-- What one NvM_JobQueue_CheckTimeouts sweep does to a single queued job:
keep it untouched when it has no timeout or has not expired, increment its
retry counter (uint8) when expired, and drop it once that counter exceeds
max_retries. -/
def timeoutStep (now : Nat) (j : NvM_Job) : Option NvM_Job :=
  if j.timeout_ms = 0 then some j
  else if j.timeout_ms < elapsedMs now j.submit_time_ms then
    if j.max_retries < (j.retry_count + 1) % U8 then none
    else some { j with retry_count := (j.retry_count + 1) % U8 }
  else some j

theorem checkTimeoutsList_eq_filterMap (now : Nat) (jobs : List NvM_Job) :
    (checkTimeoutsList now jobs).2 = jobs.filterMap (timeoutStep now) := by
  induction jobs with
  | nil => rfl
  | cons j rest ih =>
    cases hrec : checkTimeoutsList now rest with
    | mk c rest2 =>
      have ih2 : rest2 = rest.filterMap (timeoutStep now) := by rw [← ih, hrec]
      conv_lhs => rw [checkTimeoutsList]
      simp only [hrec]
      by_cases h0 : j.timeout_ms = 0
      · simp [if_pos h0, List.filterMap_cons, timeoutStep, h0, ih2]
      · by_cases ht : j.timeout_ms < elapsedMs now j.submit_time_ms
        · by_cases hd : j.max_retries < (j.retry_count + 1) % U8
          · simp [if_neg h0, if_pos ht, List.filterMap_cons, timeoutStep, h0, ht, hd, ih2]
          · simp [if_neg h0, if_pos ht, List.filterMap_cons, timeoutStep, h0, ht, hd, ih2]
        · simp [if_neg h0, if_neg ht, List.filterMap_cons, timeoutStep, h0, ht, ih2]

theorem process_read_block_frame (j : NvM_Job) (s : NvMState) :
    (process_read_block j s).2.job_results = s.job_results ∧
    (process_read_block j s).2.queue = s.queue ∧
    (process_read_block j s).2.initialized = s.initialized := by
  unfold process_read_block
  cases find_block j.block_id s.blocks with
  | none => exact ⟨rfl, rfl, rfl⟩
  | some b =>
    dsimp only []
    cases b.block_type
    · cases NvM_ReadNativeBlock b j.data_ptr s.sim with
      | mk r rest => obtain ⟨buf, b2, sim2⟩ := rest; exact ⟨rfl, rfl, rfl⟩
    · cases NvM_ReadRedundantBlock b j.data_ptr s.sim with
      | mk r rest => obtain ⟨buf, b2, sim2⟩ := rest; exact ⟨rfl, rfl, rfl⟩
    · cases NvM_ReadDatasetBlock b j.data_ptr s.sim with
      | mk r rest => obtain ⟨buf, b2, sim2⟩ := rest; exact ⟨rfl, rfl, rfl⟩

theorem process_write_block_frame (j : NvM_Job) (s : NvMState) :
    (process_write_block j s).2.job_results = s.job_results ∧
    (process_write_block j s).2.queue = s.queue ∧
    (process_write_block j s).2.initialized = s.initialized := by
  unfold process_write_block
  cases find_block j.block_id s.blocks with
  | none => exact ⟨rfl, rfl, rfl⟩
  | some b =>
    dsimp only []
    by_cases hp : b.is_write_protected = true
    · simp only [if_pos hp]
      exact ⟨by trivial, by trivial, by trivial⟩
    · simp only [if_neg hp]
      cases b.block_type
      · cases NvM_WriteNativeBlock b j.data_ptr s.sim with
        | mk r rest => obtain ⟨b2, sim2⟩ := rest; exact ⟨rfl, rfl, rfl⟩
      · cases NvM_WriteRedundantBlock b j.data_ptr s.sim with
        | mk r rest => obtain ⟨b2, sim2⟩ := rest; exact ⟨rfl, rfl, rfl⟩
      · cases NvM_WriteDatasetBlock b j.data_ptr s.sim with
        | mk r rest => obtain ⟨b2, sim2⟩ := rest; exact ⟨rfl, rfl, rfl⟩

theorem processAllReadAux_frame (l : List (Nat × List Nat)) :
    ∀ (acc : Std_ReturnType) (s : NvMState),
    (processAllReadAux l acc s).2.job_results = s.job_results ∧
    (processAllReadAux l acc s).2.queue = s.queue ∧
    (processAllReadAux l acc s).2.initialized = s.initialized := by
  induction l with
  | nil => intro acc s; exact ⟨rfl, rfl, rfl⟩
  | cons p rest ih =>
    intro acc s
    obtain ⟨bid, mirror⟩ := p
    unfold processAllReadAux
    cases hp : process_read_block (allJobFor NvM_JobType.READ bid mirror) s with
    | mk r s2 =>
      have hf := process_read_block_frame (allJobFor NvM_JobType.READ bid mirror) s
      rw [hp] at hf
      have hrec := ih (if r = E_OK then acc else E_NOT_OK) s2
      exact ⟨hrec.1.trans hf.1, hrec.2.1.trans hf.2.1, hrec.2.2.trans hf.2.2⟩

theorem processAllWriteAux_frame (l : List (Nat × Bool × List Nat)) :
    ∀ (acc : Std_ReturnType) (s : NvMState),
    (processAllWriteAux l acc s).2.job_results = s.job_results ∧
    (processAllWriteAux l acc s).2.queue = s.queue ∧
    (processAllWriteAux l acc s).2.initialized = s.initialized := by
  induction l with
  | nil => intro acc s; exact ⟨rfl, rfl, rfl⟩
  | cons p rest ih =>
    intro acc s
    obtain ⟨bid, prot, mirror⟩ := p
    unfold processAllWriteAux
    by_cases hprot : prot
    · simp only [if_pos hprot]
      exact ih acc s
    · simp only [if_neg hprot]
      cases hp : process_write_block (allJobFor NvM_JobType.WRITE bid mirror) s with
      | mk r s2 =>
        have hf := process_write_block_frame (allJobFor NvM_JobType.WRITE bid mirror) s
        rw [hp] at hf
        have hrec := ih (if r = E_OK then acc else E_NOT_OK) s2
        exact ⟨hrec.1.trans hf.1, hrec.2.1.trans hf.2.1, hrec.2.2.trans hf.2.2⟩

theorem processJob_frame (j : NvM_Job) (s : NvMState) (bid : Nat)
    (hne : j.block_id ≠ bid) :
    (NvM_ProcessJob j s).job_results bid = s.job_results bid ∧
    (NvM_ProcessJob j s).queue = s.queue ∧
    (NvM_ProcessJob j s).initialized = s.initialized := by
  unfold NvM_ProcessJob
  have hstep :
      (match j.job_type with
        | NvM_JobType.READ => process_read_block j s
        | NvM_JobType.WRITE => process_write_block j s
        | NvM_JobType.READ_ALL => process_read_all s
        | NvM_JobType.WRITE_ALL => process_write_all s).2.job_results = s.job_results ∧
      (match j.job_type with
        | NvM_JobType.READ => process_read_block j s
        | NvM_JobType.WRITE => process_write_block j s
        | NvM_JobType.READ_ALL => process_read_all s
        | NvM_JobType.WRITE_ALL => process_write_all s).2.queue = s.queue ∧
      (match j.job_type with
        | NvM_JobType.READ => process_read_block j s
        | NvM_JobType.WRITE => process_write_block j s
        | NvM_JobType.READ_ALL => process_read_all s
        | NvM_JobType.WRITE_ALL => process_write_all s).2.initialized = s.initialized := by
    cases j.job_type
    · exact process_read_block_frame j s
    · exact process_write_block_frame j s
    · exact processAllReadAux_frame _ E_OK s
    · exact processAllWriteAux_frame _ E_OK s
  by_cases h255 : j.block_id = 0xFF
  · simp only [if_pos h255]
    exact ⟨congrFun hstep.1 bid, hstep.2.1, hstep.2.2⟩
  · simp only [if_neg h255]
    refine ⟨?_, hstep.2.1, hstep.2.2⟩
    dsimp only []
    rw [if_neg (fun h => hne h.symm)]
    exact congrFun hstep.1 bid

theorem drainQueue_frame (l : List NvM_Job) :
    ∀ (s : NvMState) (bid : Nat), (∀ j ∈ l, j.block_id ≠ bid) →
    (NvM_DrainQueue l s).job_results bid = s.job_results bid ∧
    (NvM_DrainQueue l s).queue = s.queue ∧
    (NvM_DrainQueue l s).initialized = s.initialized := by
  induction l with
  | nil => intro s bid _; exact ⟨rfl, rfl, rfl⟩
  | cons j rest ih =>
    intro s bid hall
    unfold NvM_DrainQueue
    have hj := processJob_frame j s bid (hall j (by simp))
    have hrec := ih (NvM_ProcessJob j s) bid (fun x hx => hall x (by simp [hx]))
    exact ⟨hrec.1.trans hj.1, hrec.2.1.trans hj.2.1, hrec.2.2.trans hj.2.2⟩

theorem timeoutStep_block_id {now : Nat} {a j : NvM_Job}
    (h : timeoutStep now a = some j) : j.block_id = a.block_id := by
  unfold timeoutStep at h
  by_cases h0 : a.timeout_ms = 0
  · rw [if_pos h0] at h
    cases h
    rfl
  · rw [if_neg h0] at h
    by_cases ht : a.timeout_ms < elapsedMs now a.submit_time_ms
    · rw [if_pos ht] at h
      by_cases hd : a.max_retries < (a.retry_count + 1) % U8
      · rw [if_pos hd] at h
        cases h
      · rw [if_neg hd] at h
        cases h
        rfl
    · rw [if_neg ht] at h
      cases h
      rfl

/-- C5 amended: a timeout sweep increments the retry counter of every
expired queued job and drops the job once that counter exceeds max_retries
(the sweep acts as the per-job filter timeoutStep); the drop is silent with
respect to the job result words: for a block all of whose queued jobs are
dropped by the sweep, NvM_MainFunction leaves that block's job result
unchanged (it is not set to NVM_REQ_NOT_OK) and ends with an empty queue. -/
theorem checktimeouts_increments_and_drops_silently :
    (∀ (now : Nat) (jobs : List NvM_Job),
      (checkTimeoutsList now jobs).2 = jobs.filterMap (timeoutStep now)) ∧
    (∀ (s : NvMState) (bid : Nat),
      s.initialized = true → bid ≠ 0xFF →
      (∀ j ∈ s.queue.jobs, j.block_id = bid → timeoutStep s.now_ms j = none) →
      (NvM_MainFunction s).job_results bid = s.job_results bid ∧
      (NvM_MainFunction s).queue.jobs = []) := by
  refine ⟨checkTimeoutsList_eq_filterMap, ?_⟩
  intro s bid hinit h255 hdrop
  unfold NvM_MainFunction
  rw [if_neg (by simp [hinit])]
  cases hsw : NvM_JobQueue_CheckTimeouts s.now_ms s.queue with
  | mk tc q2 =>
    have hq2 : q2.jobs = s.queue.jobs.filterMap (timeoutStep s.now_ms) := by
      have := checkTimeoutsList_eq_filterMap s.now_ms s.queue.jobs
      unfold NvM_JobQueue_CheckTimeouts at hsw
      cases hcl : checkTimeoutsList s.now_ms s.queue.jobs with
      | mk c jl =>
        rw [hcl] at hsw this
        cases hsw
        exact this
    have hnone : ∀ j ∈ q2.jobs, j.block_id ≠ bid := by
      intro j hj
      rw [hq2] at hj
      obtain ⟨a, ha, hstep⟩ := List.mem_filterMap.mp hj
      intro hcontra
      have hba : a.block_id = bid := by
        rw [← timeoutStep_block_id hstep]
        exact hcontra
      rw [hdrop a ha hba] at hstep
      cases hstep
    simp only []
    have hdr := drainQueue_frame q2.jobs
      { s with queue := { q2 with jobs := [] } } bid hnone
    refine ⟨hdr.1, ?_⟩
    rw [hdr.2.1]

/-- A write job for block 1 that has been waiting since tick 0 and already
used up its retries. -/
def c5Job : NvM_Job :=
  { job_type := NvM_JobType.WRITE
    block_id := 1
    priority := 0
    is_immediate := false
    data_ptr := []
    submit_time_ms := 0
    timeout_ms := 2000
    retry_count := 3
    max_retries := 3 }

/-- Manager state at tick 5000 holding only the expired job, with block 1
still Pending. -/
def c5State : NvMState :=
  { initialNvMState with
    initialized := true
    now_ms := 5000
    queue := { jobs := [c5Job], max_count := 1, overflow_count := 0 }
    job_results := fun i => if i = 1 then NVM_REQ_PENDING else 0 }

/-- C5 counterexample: the expired job is dropped from the queue by the
timeout sweep inside NvM_MainFunction, but the block's job result word stays
NVM_REQ_PENDING; it does not become NVM_REQ_NOT_OK. -/
theorem checktimeouts_drop_leaves_result_pending :
    (NvM_MainFunction c5State).queue.jobs = [] ∧
    (NvM_MainFunction c5State).job_results 1 = NVM_REQ_PENDING ∧
    NVM_REQ_PENDING ≠ NVM_REQ_NOT_OK := by
  decide

theorem checktimeouts_increments_and_drops_silently_witness :
    (checkTimeoutsList 5000 [c5Job]).2 = [c5Job].filterMap (timeoutStep 5000) ∧
    (NvM_MainFunction c5State).job_results 1 = c5State.job_results 1 ∧
    (NvM_MainFunction c5State).queue.jobs = [] :=
  ⟨checktimeouts_increments_and_drops_silently.1 5000 [c5Job],
   (checktimeouts_increments_and_drops_silently.2 c5State 1 rfl (by decide) (by decide)).1,
   (checktimeouts_increments_and_drops_silently.2 c5State 1 rfl (by decide) (by decide)).2⟩

/-- A queued job tagged with its enqueue sequence number (specification
ghost data: position in the global enqueue order; the C queue stores only
the job). -/
def TaggedJob : Type :=
  NvM_Job × Nat

instance : DecidableEq TaggedJob := by
  unfold TaggedJob
  infer_instance

/-- find_insert_position evaluated on a tagged queue (the tags are invisible
to the priority scan). -/
def find_insert_position_tagged (job : NvM_Job) (q : List TaggedJob) : Nat :=
  find_insert_position job (q.map Prod.fst)

/-- NvM_JobQueue_Enqueue insertion step on a tagged queue. -/
def enqueueTagged (j : NvM_Job) (t : Nat) (q : List TaggedJob) : List TaggedJob :=
  q.insertIdx (find_insert_position_tagged j q) (j, t)

/-- One request-or-dispatch step as seen by the queue. -/
inductive QOp where
  | enq : NvM_Job → QOp
  | deq : QOp

/-- Runs a sequence of enqueue/dequeue operations against a tagged queue,
mirroring NvM_JobQueue_Enqueue (rejecting when full) and
NvM_JobQueue_Dequeue (removing the head); the counter hands out enqueue
sequence numbers. -/
def runQOps : List QOp → List TaggedJob × Nat → List TaggedJob × Nat
  | [], st => st
  | QOp.enq j :: rest, (q, t) =>
    if NVM_JOB_QUEUE_SIZE ≤ q.length then runQOps rest (q, t)
    else runQOps rest (enqueueTagged j t q, t + 1)
  | QOp.deq :: rest, (q, t) =>
    match q with
    | [] => runQOps rest ([], t)
    | _ :: qrest => runQOps rest (qrest, t)

/-- x is dequeued before y: strictly smaller effective priority value, or the
same effective priority and the earlier enqueue sequence number. -/
def dequeuesBefore (x y : TaggedJob) : Prop :=
  calculate_effective_priority x.1 < calculate_effective_priority y.1 ∨
    (calculate_effective_priority x.1 = calculate_effective_priority y.1 ∧ x.2 < y.2)

/-- Recursive form of the priority insertion: insert before the first queued
element with a strictly larger effective priority value. -/
def orderedInsertTagged (j : NvM_Job) (t : Nat) : List TaggedJob → List TaggedJob
  | [] => [(j, t)]
  | x :: xs =>
    if calculate_effective_priority j < calculate_effective_priority x.1 then
      (j, t) :: x :: xs
    else x :: orderedInsertTagged j t xs

theorem map_insertIdx {α β : Type} (f : α → β) :
    ∀ (n : Nat) (a : α) (l : List α),
    (l.insertIdx n a).map f = (l.map f).insertIdx n (f a) := by
  intro n
  induction n with
  | zero => intro a l; rfl
  | succ n ih =>
    intro a l
    cases l with
    | nil => rfl
    | cons x xs =>
      rw [List.insertIdx_succ_cons, List.map_cons, List.map_cons,
        List.insertIdx_succ_cons, ih]

theorem enqueueTagged_eq_orderedInsert (j : NvM_Job) (t : Nat) :
    ∀ q : List TaggedJob, enqueueTagged j t q = orderedInsertTagged j t q := by
  intro q
  induction q with
  | nil => rfl
  | cons x xs ih =>
    unfold enqueueTagged find_insert_position_tagged find_insert_position
    rw [List.map_cons, List.findIdx_cons]
    by_cases hlt : calculate_effective_priority j < calculate_effective_priority x.1
    · rw [decide_eq_true hlt, Bool.cond_true]
      unfold orderedInsertTagged
      rw [if_pos hlt]
      rfl
    · rw [decide_eq_false hlt, Bool.cond_false]
      unfold orderedInsertTagged
      rw [if_neg hlt, List.insertIdx_succ_cons]
      rw [← ih]
      rfl

/-- The tagged insertion projects onto the source enqueue: dropping the tags
gives exactly the jobs list NvM_JobQueue_Enqueue produces. -/
theorem enqueueTagged_projects (j : NvM_Job) (t : Nat) (q : List TaggedJob)
    (m o : Nat) (h : q.length < NVM_JOB_QUEUE_SIZE) :
    (NvM_JobQueue_Enqueue j
      { jobs := q.map Prod.fst, max_count := m, overflow_count := o }).2.jobs =
      (enqueueTagged j t q).map Prod.fst := by
  unfold NvM_JobQueue_Enqueue
  rw [if_neg (by simp only []; rw [List.length_map]; omega)]
  show (q.map Prod.fst).insertIdx (find_insert_position j (q.map Prod.fst)) j = _
  unfold enqueueTagged find_insert_position_tagged
  rw [map_insertIdx]

theorem mem_orderedInsertTagged (j : NvM_Job) (t : Nat) :
    ∀ (q : List TaggedJob) (y : TaggedJob),
    y ∈ orderedInsertTagged j t q ↔ y = (j, t) ∨ y ∈ q := by
  intro q
  induction q with
  | nil =>
    intro y
    unfold orderedInsertTagged
    simp
  | cons x xs ih =>
    intro y
    unfold orderedInsertTagged
    by_cases hlt : calculate_effective_priority j < calculate_effective_priority x.1
    · rw [if_pos hlt]
      simp [or_assoc]
    · rw [if_neg hlt]
      simp only [List.mem_cons, ih y]
      tauto

theorem orderedInsertTagged_pairwise (j : NvM_Job) (t : Nat) :
    ∀ q : List TaggedJob,
    List.Pairwise dequeuesBefore q → (∀ x ∈ q, x.2 < t) →
    List.Pairwise dequeuesBefore (orderedInsertTagged j t q) ∧
      (∀ x ∈ orderedInsertTagged j t q, x.2 < t + 1) := by
  intro q
  induction q with
  | nil =>
    intro _ _
    constructor
    · unfold orderedInsertTagged
      simp
    · intro x hx
      unfold orderedInsertTagged at hx
      simp at hx
      rw [hx]
      show t < t + 1
      omega
  | cons x xs ih =>
    intro hp hb
    have hpx := List.pairwise_cons.mp hp
    unfold orderedInsertTagged
    by_cases hlt : calculate_effective_priority j < calculate_effective_priority x.1
    · rw [if_pos hlt]
      constructor
      · refine List.pairwise_cons.mpr ⟨?_, hp⟩
        intro y hy
        rcases List.mem_cons.mp hy with heq | hmem
        · rw [heq]
          exact Or.inl hlt
        · have hrel := hpx.1 y hmem
          have hxy : calculate_effective_priority x.1 ≤
              calculate_effective_priority y.1 := by
            rcases hrel with h1 | h2
            · omega
            · omega
          exact Or.inl (show calculate_effective_priority j <
            calculate_effective_priority y.1 by omega)
      · intro z hz
        rcases List.mem_cons.mp hz with heq | hmem
        · rw [heq]
          show t < t + 1
          omega
        · have := hb z hmem
          omega
    · rw [if_neg hlt]
      have hrec := ih hpx.2 (fun z hz => hb z (by simp [hz]))
      constructor
      · refine List.pairwise_cons.mpr ⟨?_, hrec.1⟩
        intro y hy
        rcases (mem_orderedInsertTagged j t xs y).mp hy with heq | hmem
        · rw [heq]
          rcases Nat.lt_or_ge (calculate_effective_priority x.1)
            (calculate_effective_priority j) with h1 | h2
          · exact Or.inl h1
          · have heqp : calculate_effective_priority x.1 =
                calculate_effective_priority j := by omega
            exact Or.inr ⟨heqp, hb x (by simp)⟩
      
        · exact hpx.1 y hmem
      · intro z hz
        rcases List.mem_cons.mp hz with heq | hmem
        · have := hb z (by simp [heq])
          omega
        · exact hrec.2 z hmem

theorem runQOps_invariant (ops : List QOp) :
    ∀ (q : List TaggedJob) (t : Nat),
    List.Pairwise dequeuesBefore q → (∀ x ∈ q, x.2 < t) →
    List.Pairwise dequeuesBefore (runQOps ops (q, t)).1 := by
  induction ops with
  | nil => intro q t hp _; exact hp
  | cons op rest ih =>
    intro q t hp hb
    cases op with
    | enq j =>
      unfold runQOps
      by_cases hfull : NVM_JOB_QUEUE_SIZE ≤ q.length
      · rw [if_pos hfull]
        exact ih q t hp hb
      · rw [if_neg hfull]
        have := orderedInsertTagged_pairwise j t q hp hb
        rw [← enqueueTagged_eq_orderedInsert] at this
        exact ih (enqueueTagged j t q) (t + 1) this.1 this.2
    | deq =>
      unfold runQOps
      cases q with
      | nil => exact ih [] t hp hb
      | cons x xs =>
        have hpx := List.pairwise_cons.mp hp
        exact ih xs t hpx.2 (fun z hz => hb z (by simp [hz]))

/-- C4: for any sequence of enqueue/dequeue operations starting from the
empty queue, any job x standing ahead of a job y in the queue satisfies:
x has a strictly smaller effective priority value than y, or the same
effective priority and the earlier enqueue sequence number (FIFO within a
priority class); effective priorities are computed at enqueue time by
calculate_effective_priority (ReadAll 0, WriteAll 1, an immediate per-block
job with configured priority above 2 gets priority minus 2, otherwise the
configured priority).  Since NvM_JobQueue_Dequeue always removes the head
(second conjunct), the job ahead is the one dequeued first. -/
theorem jobqueue_priority_fifo_order :
    (∀ ops : List QOp,
      List.Pairwise dequeuesBefore (runQOps ops ([], 0)).1) ∧
    (∀ (qq : NvM_JobQueue) (j : NvM_Job) (rest : List NvM_Job),
      qq.jobs = j :: rest →
      NvM_JobQueue_Dequeue qq = (E_OK, some j, { qq with jobs := rest })) := by
  constructor
  · intro ops
    exact runQOps_invariant ops [] 0 (by simp) (by simp)
  · intro qq j rest hj
    unfold NvM_JobQueue_Dequeue
    rw [hj]

/-- Two per-block write jobs used by the queue-order witness. -/
def c4JobA : NvM_Job :=
  { job_type := NvM_JobType.WRITE, block_id := 3, priority := 10, is_immediate := true,
    data_ptr := [], submit_time_ms := 0, timeout_ms := 3000, retry_count := 0,
    max_retries := 3 }

def c4JobB : NvM_Job :=
  { job_type := NvM_JobType.WRITE, block_id := 4, priority := 5, is_immediate := false,
    data_ptr := [], submit_time_ms := 1, timeout_ms := 3000, retry_count := 0,
    max_retries := 3 }

theorem jobqueue_priority_fifo_order_witness :
    List.Pairwise dequeuesBefore
      (runQOps [QOp.enq c4JobA, QOp.enq c4JobB, QOp.enq c4JobA] ([], 0)).1 ∧
    NvM_JobQueue_Dequeue { jobs := [c4JobB, c4JobA], max_count := 2, overflow_count := 0 } =
      (E_OK, some c4JobB,
        { jobs := [c4JobA], max_count := 2, overflow_count := 0 }) :=
  ⟨jobqueue_priority_fifo_order.1 [QOp.enq c4JobA, QOp.enq c4JobB, QOp.enq c4JobA],
   jobqueue_priority_fifo_order.2
     { jobs := [c4JobB, c4JobA], max_count := 2, overflow_count := 0 } c4JobB [c4JobA] rfl⟩

theorem memIfWrite_one_fails (addr v : Nat) (s : SimState) (h : NoFaults s.faults) :
    MemIf_Write addr [v] 1 s = (E_NOT_OK, s) := by
  unfold MemIf_Write Eep_Write
  by_cases hv : validate_address s.eeprom addr 1
  · rw [if_pos hv]
    simp only [hookBeforeWrite_noFaults _ _ h]
    by_cases ha : addr % EEPROM_PAGE_SIZE = 0
    · simp only [if_pos ha]
      rw [if_neg (by decide : ¬ (1 : Nat) % EEPROM_PAGE_SIZE = 0)]
      simp
    · simp only [if_neg ha]
      simp
  · rw [if_neg hv]

theorem writtenStorage_outside_low {σ : Nat → Nat} {offset : Nat} {data : List Nat}
    {size : Nat} {ct : NvM_CrcType} {a : Nat} (h : a < offset) :
    writtenStorage σ offset data size ct a = σ a := by
  unfold writtenStorage
  by_cases hc : ct = NvM_CrcType.NONE
  · simp only [if_pos hc]
    rw [overwriteRange_outside _ (Or.inl h), overwriteRange_outside _ (Or.inl h)]
  · simp only [if_neg hc]
    rw [overwriteRange_outside _ (Or.inl (by omega)),
      overwriteRange_outside _ (Or.inl h), overwriteRange_outside _ (Or.inl h)]

theorem writtenStorage_outside_high {σ : Nat → Nat} {offset : Nat} {data : List Nat}
    {size : Nat} {ct : NvM_CrcType} {a : Nat}
    (hsz : size + 256 ≤ EEPROM_ERASE_BLOCK_SIZE)
    (h : offset + EEPROM_ERASE_BLOCK_SIZE ≤ a) :
    writtenStorage σ offset data size ct a = σ a := by
  have hsz1 : size + 256 ≤ 1024 := hsz
  have h1 : offset + 1024 ≤ a := h
  unfold writtenStorage
  by_cases hc : ct = NvM_CrcType.NONE
  · simp only [if_pos hc]
    rw [overwriteRange_outside _ (Or.inr (by omega)),
      overwriteRange_outside _ (Or.inr (by show offset + 1024 ≤ a; omega))]
  · simp only [if_neg hc]
    rw [overwriteRange_outside _ (Or.inr (by omega)),
      overwriteRange_outside _ (Or.inr (by omega)),
      overwriteRange_outside _ (Or.inr (by show offset + 1024 ≤ a; omega))]

theorem tryRead_crc_mismatch {s : SimState} (offset size : Nat) (buf : List Nat)
    (crc_type : NvM_CrcType)
    (hnf : NoFaults s.faults)
    (hinit : s.eeprom.initialized = true)
    (hcap1 : offset < EEPROM_CAPACITY_BYTES)
    (hcap3 : offset + size + 2 ≤ EEPROM_CAPACITY_BYTES)
    (hct : crc_type ≠ NvM_CrcType.NONE)
    (hmis : stored16 s.eeprom.storage (offset + size) ≠
      Crc16_Calculate (listBytes s.eeprom.storage offset size)) :
    NvM_TryReadBlock offset buf size crc_type s =
      (false, listBytes s.eeprom.storage offset size, s) := by
  have hcap1l : offset < 4096 := hcap1
  have hcap3l : offset + size + 2 ≤ 4096 := hcap3
  have hv1 : validate_address s.eeprom offset size := by
    refine ⟨hinit, hcap1, ?_⟩
    show (offset + size) % 4294967296 ≤ 4096
    rw [Nat.mod_eq_of_lt (by omega)]
    omega
  have hv2 : validate_address s.eeprom (offset + size) 2 := by
    refine ⟨hinit, ?_, ?_⟩
    · show offset + size < 4096
      omega
    · show (offset + size + 2) % 4294967296 ≤ 4096
      rw [Nat.mod_eq_of_lt (by omega)]
      omega
  have h2 := memIfRead_ok (s := s) (offset + size) 2 hnf hv2
  have hlist2 : listBytes s.eeprom.storage (offset + size) 2 =
      [s.eeprom.storage (offset + size), s.eeprom.storage (offset + size + 1)] := by
    simp [listBytes, List.range_succ]
  unfold NvM_TryReadBlock
  simp only [memIfRead_ok offset size hnf hv1, if_neg hct, h2, hlist2]
  have hred : [s.eeprom.storage (offset + size),
      s.eeprom.storage (offset + size + 1)].getD 0 0 % U8 +
      U8 * ([s.eeprom.storage (offset + size),
        s.eeprom.storage (offset + size + 1)].getD 1 0 % U8) =
      stored16 s.eeprom.storage (offset + size) := by
    simp [stored16, List.getD]
  rw [hred]
  rw [if_neg hmis]

theorem writeRedundant_ok
    (b : NvM_BlockConfig) (data : List Nat) (s : SimState)
    (hnf : NoFaults s.faults)
    (hinit : s.eeprom.initialized = true)
    (hpa : b.eeprom_offset % EEPROM_BLOCK_SLOT_SIZE = 0)
    (hba : b.redundant_eeprom_offset % EEPROM_BLOCK_SLOT_SIZE = 0)
    (hpc : b.eeprom_offset + EEPROM_BLOCK_SLOT_SIZE ≤ EEPROM_CAPACITY_BYTES)
    (hbc : b.redundant_eeprom_offset + EEPROM_BLOCK_SLOT_SIZE ≤ EEPROM_CAPACITY_BYTES)
    (hsep : b.eeprom_offset + EEPROM_BLOCK_SLOT_SIZE ≤ b.redundant_eeprom_offset)
    (hpage : b.block_size % EEPROM_PAGE_SIZE = 0)
    (hfit : b.block_size + crcSizeOf b.crc_type ≤ EEPROM_BLOCK_SLOT_SIZE)
    (hend1 : s.eeprom.eraseCounts (b.eeprom_offset / EEPROM_ERASE_BLOCK_SIZE) <
      EEPROM_ENDURANCE_CYCLES)
    (hend2 : s.eeprom.eraseCounts (b.redundant_eeprom_offset / EEPROM_ERASE_BLOCK_SIZE) <
      EEPROM_ENDURANCE_CYCLES) :
    NvM_WriteRedundantBlock b data s =
      (E_OK,
        { b with
          active_version := (b.active_version + 1) % U8
          erase_count := b.erase_count + 1
          state := NvM_BlockState.VALID },
        { s with eeprom :=
          { s.eeprom with
            storage := writtenStorage
              (writtenStorage s.eeprom.storage b.eeprom_offset data b.block_size
                b.crc_type)
              b.redundant_eeprom_offset data b.block_size b.crc_type
            eraseCounts := bumpErase
              (bumpErase s.eeprom.eraseCounts
                (b.eeprom_offset / EEPROM_ERASE_BLOCK_SIZE))
              (b.redundant_eeprom_offset / EEPROM_ERASE_BLOCK_SIZE) } }) := by
  have hpal : b.eeprom_offset % 1024 = 0 := hpa
  have hbal : b.redundant_eeprom_offset % 1024 = 0 := hba
  have hpcl : b.eeprom_offset + 1024 ≤ 4096 := hpc
  have hbcl : b.redundant_eeprom_offset + 1024 ≤ 4096 := hbc
  have hsepl : b.eeprom_offset + 1024 ≤ b.redundant_eeprom_offset := hsep
  have hpagel : b.block_size % 256 = 0 := hpage
  have hsz1024 : b.block_size ≤ 1024 := by
    have := hfit
    cases hct2 : b.crc_type <;>
      simp [hct2, crcSizeOf, EEPROM_BLOCK_SLOT_SIZE] at this <;> omega
  have h1 := writeBlockWithCrc_ok (s := s) b.eeprom_offset data b.block_size
    b.crc_type hnf hinit hpa hpc hpage hfit hend1
  have hblkne : b.redundant_eeprom_offset / EEPROM_ERASE_BLOCK_SIZE ≠
      b.eeprom_offset / EEPROM_ERASE_BLOCK_SIZE := by
    show b.redundant_eeprom_offset / 1024 ≠ b.eeprom_offset / 1024
    omega
  have hend2b : (bumpErase s.eeprom.eraseCounts
      (b.eeprom_offset / EEPROM_ERASE_BLOCK_SIZE))
      (b.redundant_eeprom_offset / EEPROM_ERASE_BLOCK_SIZE) <
      EEPROM_ENDURANCE_CYCLES := by
    unfold bumpErase
    rw [if_neg hblkne]
    exact hend2
  have h3 := writeBlockWithCrc_ok
    (s := { s with eeprom :=
      { s.eeprom with
        storage := writtenStorage s.eeprom.storage b.eeprom_offset data
          b.block_size b.crc_type
        eraseCounts := bumpErase s.eeprom.eraseCounts
          (b.eeprom_offset / EEPROM_ERASE_BLOCK_SIZE) } })
    b.redundant_eeprom_offset data b.block_size b.crc_type hnf hinit hba hbc
    hpage hfit hend2b
  have hverify : NvM_TryReadBlock b.eeprom_offset (List.replicate 256 0)
      b.block_size b.crc_type
      { s with eeprom :=
        { s.eeprom with
          storage := writtenStorage s.eeprom.storage b.eeprom_offset data
            b.block_size b.crc_type
          eraseCounts := bumpErase s.eeprom.eraseCounts
            (b.eeprom_offset / EEPROM_ERASE_BLOCK_SIZE) } } =
      (true, bufBytes data b.block_size,
        { s with eeprom :=
          { s.eeprom with
            storage := writtenStorage s.eeprom.storage b.eeprom_offset data
              b.block_size b.crc_type
            eraseCounts := bumpErase s.eeprom.eraseCounts
              (b.eeprom_offset / EEPROM_ERASE_BLOCK_SIZE) } }) := by
    apply tryRead_of_stored
    · exact hnf
    · exact hinit
    · show b.eeprom_offset < 4096
      omega
    · show b.eeprom_offset + b.block_size ≤ 4096
      omega
    · intro hcne
      show b.eeprom_offset + b.block_size + 2 ≤ 4096
      have h1le : 1 ≤ crcSizeOf b.crc_type := by
        cases hct2 : b.crc_type
        · exact absurd hct2 hcne
        all_goals simp [crcSizeOf]
      have hfitl : b.block_size + crcSizeOf b.crc_type ≤ 1024 := hfit
      omega
    · exact listBytes_writtenStorage s.eeprom.storage b.eeprom_offset data
        b.block_size b.crc_type
    · intro hcne
      exact stored16_writtenStorage s.eeprom.storage b.eeprom_offset data
        b.block_size b.crc_type hcne
  unfold NvM_WriteRedundantBlock
  simp only [h1]
  have hver := memIfWrite_one_fails b.version_control_offset
    ((b.active_version + 1) % U8)
    { s with eeprom :=
        { s.eeprom with
          storage := writtenStorage
            (writtenStorage s.eeprom.storage b.eeprom_offset data b.block_size
              b.crc_type)
            b.redundant_eeprom_offset data b.block_size b.crc_type
          eraseCounts := bumpErase
            (bumpErase s.eeprom.eraseCounts
              (b.eeprom_offset / EEPROM_ERASE_BLOCK_SIZE))
            (b.redundant_eeprom_offset / EEPROM_ERASE_BLOCK_SIZE) } } hnf
  by_cases hsz : b.block_size ≤ 256
  · rw [if_pos hsz]
    simp only [hverify, h3]
    by_cases hvco : 0 < b.version_control_offset
    · rw [if_pos hvco]
      rw [hver]
    · rw [if_neg hvco]
  · rw [if_neg hsz]
    simp only [h3]
    by_cases hvco : 0 < b.version_control_offset
    · rw [if_pos hvco]
      rw [hver]
    · rw [if_neg hvco]

/-- C2: for a Redundant block with a registration-valid layout and no fault
injections, after NvM_WriteRedundantBlock returns E_OK, a read performed on a
medium whose backup slot is intact (it agrees with the post-write contents)
but whose primary slot fails its CRC check returns E_OK with the block state
RECOVERED and the originally written bytes. -/
theorem redundant_backup_recovery
    (b : NvM_BlockConfig) (data buf : List Nat) (s : SimState)
    (b1 : NvM_BlockConfig) (s1 : SimState)
    (σc countsc : Nat → Nat) (fsc : FaultState)
    (hnf : NoFaults s.faults)
    (hnfc : NoFaults fsc)
    (hinit : s.eeprom.initialized = true)
    (hpa : b.eeprom_offset % EEPROM_BLOCK_SLOT_SIZE = 0)
    (hba : b.redundant_eeprom_offset % EEPROM_BLOCK_SLOT_SIZE = 0)
    (hpc : b.eeprom_offset + EEPROM_BLOCK_SLOT_SIZE ≤ EEPROM_CAPACITY_BYTES)
    (hbc : b.redundant_eeprom_offset + EEPROM_BLOCK_SLOT_SIZE ≤ EEPROM_CAPACITY_BYTES)
    (hsep : b.eeprom_offset + EEPROM_BLOCK_SLOT_SIZE ≤ b.redundant_eeprom_offset)
    (hpage : b.block_size % EEPROM_PAGE_SIZE = 0)
    (hfit : b.block_size + crcSizeOf b.crc_type ≤ EEPROM_BLOCK_SLOT_SIZE)
    (hend1 : s.eeprom.eraseCounts (b.eeprom_offset / EEPROM_ERASE_BLOCK_SIZE) <
      EEPROM_ENDURANCE_CYCLES)
    (hend2 : s.eeprom.eraseCounts (b.redundant_eeprom_offset / EEPROM_ERASE_BLOCK_SIZE) <
      EEPROM_ENDURANCE_CYCLES)
    (hlen : data.length = b.block_size)
    (hct : b.crc_type ≠ NvM_CrcType.NONE)
    (hok : NvM_WriteRedundantBlock b data s = (E_OK, b1, s1))
    (hagree : ∀ a, a < b.redundant_eeprom_offset + b.block_size + 2 →
      b.redundant_eeprom_offset ≤ a → σc a = s1.eeprom.storage a)
    (hfail : stored16 σc (b.eeprom_offset + b.block_size) ≠
      Crc16_Calculate (listBytes σc b.eeprom_offset b.block_size)) :
    NvM_ReadRedundantBlock b1 buf
        { eeprom := { storage := σc, eraseCounts := countsc, initialized := true }
          faults := fsc } =
      (E_OK, data, { b1 with state := NvM_BlockState.RECOVERED },
        { eeprom := { storage := σc, eraseCounts := countsc, initialized := true }
          faults := fsc }) := by
  have hpcl : b.eeprom_offset + 1024 ≤ 4096 := hpc
  have hbcl : b.redundant_eeprom_offset + 1024 ≤ 4096 := hbc
  have hsepl : b.eeprom_offset + 1024 ≤ b.redundant_eeprom_offset := hsep
  have hpagel : b.block_size % 256 = 0 := hpage
  have h1le : 1 ≤ crcSizeOf b.crc_type := by
    cases hct2 : b.crc_type
    · exact absurd hct2 hct
    all_goals simp [crcSizeOf]
  have hfitl : b.block_size + crcSizeOf b.crc_type ≤ 1024 := hfit
  have hsz768 : b.block_size ≤ 768 := by omega
  have hw := writeRedundant_ok b data s hnf hinit hpa hba hpc hbc hsep hpage
    hfit hend1 hend2
  rw [hw] at hok
  have hb1 : b1 = { b with
      active_version := (b.active_version + 1) % U8
      erase_count := b.erase_count + 1
      state := NvM_BlockState.VALID } :=
    (congrArg (fun p => p.2.1) hok).symm
  have hs1 : s1 = { s with eeprom :=
      { s.eeprom with
        storage := writtenStorage
          (writtenStorage s.eeprom.storage b.eeprom_offset data b.block_size
            b.crc_type)
          b.redundant_eeprom_offset data b.block_size b.crc_type
        eraseCounts := bumpErase
          (bumpErase s.eeprom.eraseCounts
            (b.eeprom_offset / EEPROM_ERASE_BLOCK_SIZE))
          (b.redundant_eeprom_offset / EEPROM_ERASE_BLOCK_SIZE) } } :=
    (congrArg (fun p => p.2.2) hok).symm
  subst hb1
  subst hs1
  have hdata : bufBytes data b.block_size = data := by
    rw [← hlen]
    exact bufBytes_self data
  have hprimfail := tryRead_crc_mismatch (s :=
      { eeprom := { storage := σc, eraseCounts := countsc, initialized := true }
        faults := fsc })
    b.eeprom_offset b.block_size buf b.crc_type hnfc rfl
    (show b.eeprom_offset < 4096 by omega)
    (show b.eeprom_offset + b.block_size + 2 ≤ 4096 by omega)
    hct hfail
  have hbackP : listBytes σc b.redundant_eeprom_offset b.block_size = data := by
    have hcg : listBytes σc b.redundant_eeprom_offset b.block_size =
        listBytes (writtenStorage
          (writtenStorage s.eeprom.storage b.eeprom_offset data b.block_size
            b.crc_type)
          b.redundant_eeprom_offset data b.block_size b.crc_type)
          b.redundant_eeprom_offset b.block_size := by
      apply listBytes_congr
      intro a ha1 ha2
      exact hagree a (by omega) ha1
    rw [hcg, listBytes_writtenStorage, hdata]
  have hbackC : stored16 σc (b.redundant_eeprom_offset + b.block_size) =
      Crc16_Calculate data := by
    unfold stored16
    rw [hagree (b.redundant_eeprom_offset + b.block_size) (by omega) (by omega),
      hagree (b.redundant_eeprom_offset + b.block_size + 1) (by omega) (by omega)]
    have := stored16_writtenStorage
      (writtenStorage s.eeprom.storage b.eeprom_offset data b.block_size b.crc_type)
      b.redundant_eeprom_offset data b.block_size b.crc_type hct
    unfold stored16 at this
    rw [this, hdata]
  have hback := tryRead_of_stored (s :=
      { eeprom := { storage := σc, eraseCounts := countsc, initialized := true }
        faults := fsc })
    b.redundant_eeprom_offset b.block_size
    (listBytes σc b.eeprom_offset b.block_size) data b.crc_type hnfc rfl
    (show b.redundant_eeprom_offset < 4096 by omega)
    (show b.redundant_eeprom_offset + b.block_size ≤ 4096 by omega)
    (fun _ => show b.redundant_eeprom_offset + b.block_size + 2 ≤ 4096 by omega)
    hbackP (fun _ => hbackC)
  unfold NvM_ReadRedundantBlock
  dsimp only []
  simp only [hprimfail, hback]


/-- A Redundant block: primary slot 0, backup slot 1, no version cell. -/
def c2Block : NvM_BlockConfig :=
  { block_id := 5
    block_size := 256
    block_type := NvM_BlockType.REDUNDANT
    crc_type := NvM_CrcType.CRC16
    priority := 0
    is_immediate := false
    is_write_protected := false
    ram_mirror_ptr := []
    rom_block_ptr := none
    rom_block_size := 0
    eeprom_offset := 0
    redundant_eeprom_offset := 1024
    version_control_offset := 0
    active_version := 0
    dataset_count := 0
    active_dataset_index := 0
    state := NvM_BlockState.UNINITIALIZED
    erase_count := 0 }

def c2Data : List Nat :=
  List.replicate 256 0x5A

/-- The block record a successful redundant write hands back. -/
def c2RecBlock : NvM_BlockConfig :=
  { c2Block with
    active_version := (c2Block.active_version + 1) % U8
    erase_count := c2Block.erase_count + 1
    state := NvM_BlockState.VALID }

/-- The medium state after the redundant write of the witness run. -/
def c2PostState : SimState :=
  { freshSim with eeprom :=
    { freshSim.eeprom with
      storage := writtenStorage
        (writtenStorage freshSim.eeprom.storage c2Block.eeprom_offset c2Data
          c2Block.block_size c2Block.crc_type)
        c2Block.redundant_eeprom_offset c2Data c2Block.block_size c2Block.crc_type
      eraseCounts := bumpErase
        (bumpErase freshSim.eeprom.eraseCounts
          (c2Block.eeprom_offset / EEPROM_ERASE_BLOCK_SIZE))
        (c2Block.redundant_eeprom_offset / EEPROM_ERASE_BLOCK_SIZE) } }

/-- The post-write medium with the low byte of the stored primary CRC
flipped (so the primary CRC check must fail) and the backup slot untouched. -/
def c2Corrupt : SimState :=
  { eeprom :=
    { storage := fun a =>
        if a = 256 then c2PostState.eeprom.storage 256 ^^^ 1
        else c2PostState.eeprom.storage a
      eraseCounts := fun _ => 0
      initialized := true }
    faults := { configs := [], rand_state := 12345, total_injected := 0 } }

theorem stored16_eval (σ : Nat → Nat) (a : Nat) :
    stored16 σ a = σ a % U8 + U8 * (σ (a + 1) % U8) := rfl

theorem xor_one_ne (x : Nat) : x ^^^ 1 ≠ x := by
  intro h
  have h0 := congrArg (fun t => t.testBit 0) h
  simp [Nat.testBit_xor] at h0
  omega

theorem redundant_backup_recovery_witness :
    NvM_WriteRedundantBlock c2Block c2Data freshSim = (E_OK, c2RecBlock, c2PostState) ∧
    NvM_ReadRedundantBlock c2RecBlock (List.replicate 256 0) c2Corrupt =
      (E_OK, c2Data, { c2RecBlock with state := NvM_BlockState.RECOVERED },
        c2Corrupt) := by
  have hok : NvM_WriteRedundantBlock c2Block c2Data freshSim =
      (E_OK, c2RecBlock, c2PostState) :=
    writeRedundant_ok c2Block c2Data freshSim (by decide) rfl (by decide) (by decide)
      (by decide) (by decide) (by decide) (by decide) (by decide) (by decide)
      (by decide)
  have hctne : c2Block.crc_type ≠ NvM_CrcType.NONE := by decide
  have hK := Crc16_Calculate_lt (bufBytes c2Data 256)
  have hKl : Crc16_Calculate (bufBytes c2Data 256) < 65536 := hK
  have hlo : c2PostState.eeprom.storage 256 =
      Crc16_Calculate (bufBytes c2Data 256) % U8 := by
    show writtenStorage
      (writtenStorage freshSim.eeprom.storage c2Block.eeprom_offset c2Data
        c2Block.block_size c2Block.crc_type)
      c2Block.redundant_eeprom_offset c2Data c2Block.block_size c2Block.crc_type
      256 = _
    rw [writtenStorage_outside_low (show (256 : Nat) < c2Block.redundant_eeprom_offset by
      show (256 : Nat) < 1024
      omega)]
    exact writtenStorage_crcLo freshSim.eeprom.storage 0 c2Data 256
      c2Block.crc_type hctne
  have hhi : c2PostState.eeprom.storage 257 =
      Crc16_Calculate (bufBytes c2Data 256) / U8 % U8 := by
    show writtenStorage
      (writtenStorage freshSim.eeprom.storage c2Block.eeprom_offset c2Data
        c2Block.block_size c2Block.crc_type)
      c2Block.redundant_eeprom_offset c2Data c2Block.block_size c2Block.crc_type
      257 = _
    rw [writtenStorage_outside_low (show (257 : Nat) < c2Block.redundant_eeprom_offset by
      show (257 : Nat) < 1024
      omega)]
    exact writtenStorage_crcHi freshSim.eeprom.storage 0 c2Data 256
      c2Block.crc_type hctne
  have hpayload : listBytes c2Corrupt.eeprom.storage c2Block.eeprom_offset
      c2Block.block_size = bufBytes c2Data 256 := by
    have hstep : listBytes c2Corrupt.eeprom.storage 0 256 =
        listBytes (writtenStorage freshSim.eeprom.storage c2Block.eeprom_offset
          c2Data c2Block.block_size c2Block.crc_type) 0 256 := by
      apply listBytes_congr
      intro a ha1 ha2
      show (if a = 256 then c2PostState.eeprom.storage 256 ^^^ 1
        else c2PostState.eeprom.storage a) = _
      rw [if_neg (by omega)]
      show writtenStorage
        (writtenStorage freshSim.eeprom.storage c2Block.eeprom_offset c2Data
          c2Block.block_size c2Block.crc_type)
        c2Block.redundant_eeprom_offset c2Data c2Block.block_size c2Block.crc_type
        a = _
      rw [writtenStorage_outside_low (show a < c2Block.redundant_eeprom_offset by
        show a < 1024
        omega)]
    show listBytes c2Corrupt.eeprom.storage 0 256 = _
    rw [hstep]
    have := listBytes_writtenStorage freshSim.eeprom.storage c2Block.eeprom_offset
      c2Data c2Block.block_size c2Block.crc_type
    simpa using this
  have hfail : stored16 c2Corrupt.eeprom.storage
      (c2Block.eeprom_offset + c2Block.block_size) ≠
      Crc16_Calculate (listBytes c2Corrupt.eeprom.storage c2Block.eeprom_offset
        c2Block.block_size) := by
    rw [hpayload]
    show stored16 c2Corrupt.eeprom.storage 256 ≠ _
    rw [stored16_eval]
    have h256 : c2Corrupt.eeprom.storage 256 =
        c2PostState.eeprom.storage 256 ^^^ 1 := by
      show (if (256 : Nat) = 256 then c2PostState.eeprom.storage 256 ^^^ 1
        else c2PostState.eeprom.storage 256) = _
      rw [if_pos rfl]
    have h257 : c2Corrupt.eeprom.storage (256 + 1) =
        c2PostState.eeprom.storage 257 := by
      show (if (256 + 1 : Nat) = 256 then c2PostState.eeprom.storage 256 ^^^ 1
        else c2PostState.eeprom.storage (256 + 1)) = _
      rw [if_neg (by omega)]
    rw [h256, h257, hlo, hhi]
    set K := Crc16_Calculate (bufBytes c2Data 256) with hKdef
    have hxlt : (K % U8 ^^^ 1) < 256 := by
      have h1 : K % U8 < 2 ^ 8 := by
        show K % 256 < 256
        omega
      have h2 : (1 : Nat) < 2 ^ 8 := by norm_num
      exact Nat.xor_lt_two_pow h1 h2
    have hxne : K % U8 ^^^ 1 ≠ K % U8 := xor_one_ne (K % U8)
    show (K % 256 ^^^ 1) % 256 + 256 * (K / 256 % 256 % 256) ≠ K
    have hxlt2 : K % 256 ^^^ 1 < 256 := hxlt
    have hxne2 : K % 256 ^^^ 1 ≠ K % 256 := hxne
    intro hcontra
    exact hxne2 (by omega)
  have hagree : ∀ a, a < c2Block.redundant_eeprom_offset + c2Block.block_size + 2 →
      c2Block.redundant_eeprom_offset ≤ a →
      c2Corrupt.eeprom.storage a = c2PostState.eeprom.storage a := by
    intro a ha1 ha2
    show (if a = 256 then c2PostState.eeprom.storage 256 ^^^ 1
      else c2PostState.eeprom.storage a) = _
    have hge : (1024 : Nat) ≤ a := ha2
    rw [if_neg (by omega)]
  refine ⟨hok, ?_⟩
  exact redundant_backup_recovery c2Block c2Data (List.replicate 256 0) freshSim
    c2RecBlock c2PostState c2Corrupt.eeprom.storage (fun _ => 0)
    { configs := [], rand_state := 12345, total_injected := 0 }
    (by decide) (by decide) rfl (by decide) (by decide) (by decide) (by decide)
    (by decide) (by decide) (by decide) (by decide) (by decide) (by decide)
    (by decide) hok hagree hfail
